import Mathlib

/-!
The minishell command shell of OpenFPGA (libopenfpgashell/src/shell.cpp)

A shallow embedding of `minishell::Shell<T>`: the command registry with its
parallel containers, the name lookup, the registration operations, the
dispatcher `execute_command` and the two runners, `run_interactive_mode` and
`run_script_mode`.

Conventions of the embedding
* a `std::vector` / `vtr::vector` is a `List`, indexed by `size_t(id)`;
* the `std::map<std::string, ShellCommandId>` is a finite map, written as a
  function `String → Option ShellCommandId` (`none` = key absent);
* a `std::function` is an `Option F` (`none` = empty), `F` naming the callbacks;
* observable effects (log lines, calls of the option parser, of the echo
  helpers and of an execute binding) are recorded in a trace of `Event`s;
* a failed `VTR_ASSERT`, an access outside a container, `front()` of an empty
  string and the call of an empty `std::function` are `Fault`s;
* the lines of a script file and the lines that `readline` delivers are lists.
-/

namespace minishell

/-! ## Types declared outside shell.cpp -/

/-- Modelled from the spec: the type `ShellCommandId`, which shell.cpp takes
from the header shell.h. The spec describes it as an opaque handle that is a
dense index into the registry containers, with a reserved `INVALID` sentinel
meaning "no such command". -/
inductive ShellCommandId where
  | mk (index : Nat)
  | INVALID
deriving DecidableEq, Repr

/-- Largest value of `size_t` on a 64 bit target. -/
def SIZE_MAX : Nat := 2 ^ 64 - 1

/-- Modelled from the spec: the conversion `size_t(cmd_id)` used to index the
containers. A proper id converts to its index; the sentinel converts to the
largest `size_t`, the strong-id convention of a sentinel of all ones. -/
def ShellCommandId.toSize : ShellCommandId → Nat
  | .mk index => index
  | .INVALID => SIZE_MAX

/-- The ways in which a member function of `Shell<T>` can fail to return. -/
inductive Fault where
  /-- `VTR_ASSERT(...)` evaluated to false. -/
  | assertion
  /-- `operator[]` applied outside the bounds of a container. -/
  | index_out_of_bounds
  /-- `std::string::front()` applied to an empty string. -/
  | front_of_empty_string
  /-- `operator()` applied to an empty `std::function`. -/
  | bad_function_call
deriving DecidableEq, Repr

/-- The collaborators of shell.cpp whose code lives in other files: the
class `Command` (type `Cmd`), the class `CommandContext` (type `Ctx`), the
tokenizer and the option parser. They are parameters of the embedding. -/
structure Externals (Cmd Ctx : Type) where
  /-- `cmd.name()` -/
  cmd_name : Cmd → String
  /-- `CommandContext(cmd)`, the freshly initialised context of a command -/
  new_context : Cmd → Ctx
  /-- `openfpga::StringToken(line).split(" ")` -/
  split : String → List String
  /-- `parse_command(tokens, cmd, context)`: the success flag and the context
  as the parser leaves it (it receives the context by reference) -/
  parse_command : List String → Cmd → Ctx → Bool × Ctx
  /-- The value that line 112 of shell.cpp stores in the name map. The
  statement assigns `cmd.name()`, a string, where a `ShellCommandId` is
  expected; shell.cpp defines no conversion of a name into an id, so the
  conversion is a parameter. -/
  id_of_name : String → ShellCommandId

/-- The data members of `Shell<T>`. -/
structure Shell (Cmd Ctx F : Type) where
  name_ : String
  title_ : String
  command_ids_ : List ShellCommandId
  commands_ : List Cmd
  command_contexts_ : List Ctx
  command_description_ : List String
  command_execute_functions_ : List (Option F)
  command_dependencies_ : List (List ShellCommandId)
  command_name2ids_ : String → Option ShellCommandId

/-- Effects of the shell that are visible outside it. -/
inductive Event (Cmd Ctx T F : Type) where
  /-- `VTR_LOG(...)` with the formatted text -/
  | log (text : String)
  /-- entry of `execute_command(cmd_line, context)` from one of the runners -/
  | execute_command (cmd_line : String)
  /-- call of the option parser with the context it is handed -/
  | parse_command (tokens : List String) (cmd : Cmd) (ctx : Ctx)
  /-- `print_command_options(cmd)` -/
  | print_command_options (cmd : Cmd)
  /-- `print_command_context(cmd, context)` -/
  | print_command_context (cmd : Cmd) (ctx : Ctx)
  /-- `operator()` of a stored execute binding, applied to the host context
  and a command context; the binding is `none` when it is empty -/
  | invoke (binding : Option F) (common_context : T) (ctx : Ctx)
  /-- `add_history(cmd_line)` of the readline library -/
  | add_history (cmd_line : String)

/-- What a `void` member function leaves behind: the shell, the effects in
order, and the fault that ended it, if any. -/
structure Outcome (Cmd Ctx T F : Type) where
  shell : Shell Cmd Ctx F
  trace : List (Event Cmd Ctx T F)
  fault : Option Fault

section Registry

variable {Cmd Ctx F : Type}

/-! ## Constructor and accessors (shell.cpp lines 28-83, 241-244) -/

/-- `Shell<T>::Shell(name)`: only the name is set, every container is empty. -/
def Shell.new (name : String) : Shell Cmd Ctx F where
  name_ := name
  title_ := ""
  command_ids_ := []
  commands_ := []
  command_contexts_ := []
  command_description_ := []
  command_execute_functions_ := []
  command_dependencies_ := []
  command_name2ids_ := fun _ => none

/-- `Shell<T>::name()` -/
def Shell.name (s : Shell Cmd Ctx F) : String := s.name_

/-- `Shell<T>::title()` -/
def Shell.title (s : Shell Cmd Ctx F) : String := s.title_

/-- `Shell<T>::set_title(title)` -/
def set_title (s : Shell Cmd Ctx F) (title : String) : Shell Cmd Ctx F :=
  { s with title_ := title }

/-- `Shell<T>::valid_command_id(cmd_id)`: the index is inside `command_ids_`
and the slot at that index holds the id itself. -/
def valid_command_id (s : Shell Cmd Ctx F) (cmd_id : ShellCommandId) : Bool :=
  decide (cmd_id.toSize < s.command_ids_.length) &&
    decide (s.command_ids_[cmd_id.toSize]? = some cmd_id)

/-- `Shell<T>::command(name)`: the id the name map holds for `name`, or the
sentinel when the map has no such key. -/
def command (s : Shell Cmd Ctx F) (name : String) : ShellCommandId :=
  match s.command_name2ids_ name with
  | none => ShellCommandId.INVALID
  | some cmd_id => cmd_id

/-- An element access `container[cmd_id]`. -/
def at_id {α : Type} (container : List α) (cmd_id : ShellCommandId) : Except Fault α :=
  match container[cmd_id.toSize]? with
  | some a => Except.ok a
  | none => Except.error Fault.index_out_of_bounds

/-- `Shell<T>::command_description(cmd_id)` -/
def command_description (s : Shell Cmd Ctx F) (cmd_id : ShellCommandId) : Except Fault String :=
  if valid_command_id s cmd_id = true then at_id s.command_description_ cmd_id
  else Except.error Fault.assertion

/-- `Shell<T>::command(cmd_id)`, the overload that takes an id. -/
def command_by_id (s : Shell Cmd Ctx F) (cmd_id : ShellCommandId) : Except Fault Cmd :=
  if valid_command_id s cmd_id = true then at_id s.commands_ cmd_id
  else Except.error Fault.assertion

/-- `Shell<T>::command_context(cmd_id)` -/
def command_context (s : Shell Cmd Ctx F) (cmd_id : ShellCommandId) : Except Fault Ctx :=
  if valid_command_id s cmd_id = true then at_id s.command_contexts_ cmd_id
  else Except.error Fault.assertion

/-- `Shell<T>::command_dependency(cmd_id)` -/
def command_dependency (s : Shell Cmd Ctx F) (cmd_id : ShellCommandId) :
    Except Fault (List ShellCommandId) :=
  if valid_command_id s cmd_id = true then at_id s.command_dependencies_ cmd_id
  else Except.error Fault.assertion

/-! ## Mutators (shell.cpp lines 94-133) -/

/-- `map[key] = value` on the name map. -/
def map_assign (m : String → Option ShellCommandId) (key : String) (value : ShellCommandId) :
    String → Option ShellCommandId :=
  fun k => if k = key then some value else m k

/-- `Shell<T>::add_command(cmd, descr)`. The guard looks `cmd.name()` up in the
name map. Past the guard the six containers grow by one element each, and
line 112, `command_name2ids_[std::string(name)] = cmd.name();`, writes the map:
its key is `name`, which in this scope is the accessor of the shell's own
name, and its value is made from `cmd.name()`. -/
def add_command (X : Externals Cmd Ctx) (s : Shell Cmd Ctx F) (cmd : Cmd) (descr : String) :
    Shell Cmd Ctx F × ShellCommandId :=
  match s.command_name2ids_ (X.cmd_name cmd) with
  | some _ => (s, ShellCommandId.INVALID)
  | none =>
    let shell_cmd := ShellCommandId.mk s.command_ids_.length
    ({ s with
        command_ids_ := s.command_ids_ ++ [shell_cmd]
        commands_ := s.commands_ ++ [cmd]
        command_contexts_ := s.command_contexts_ ++ [X.new_context cmd]
        command_description_ := s.command_description_ ++ [descr]
        command_execute_functions_ := s.command_execute_functions_ ++ [none]
        command_dependencies_ := s.command_dependencies_ ++ [[]]
        command_name2ids_ :=
          map_assign s.command_name2ids_ s.name (X.id_of_name (X.cmd_name cmd)) },
     shell_cmd)

/-- An element assignment `container[cmd_id] = value`. -/
def assign_at {α : Type} (container : List α) (cmd_id : ShellCommandId) (value : α) :
    Except Fault (List α) :=
  if cmd_id.toSize < container.length then Except.ok (container.set cmd_id.toSize value)
  else Except.error Fault.index_out_of_bounds

/-- `Shell<T>::add_command_execute_function(cmd_id, exec_func)` -/
def add_command_execute_function (s : Shell Cmd Ctx F) (cmd_id : ShellCommandId)
    (exec_func : Option F) : Except Fault (Shell Cmd Ctx F) :=
  if valid_command_id s cmd_id = true then
    match assign_at s.command_execute_functions_ cmd_id exec_func with
    | Except.ok fs => Except.ok { s with command_execute_functions_ := fs }
    | Except.error e => Except.error e
  else Except.error Fault.assertion

/-- `Shell<T>::add_command_dependency(cmd_id, dependent_cmds)` -/
def add_command_dependency (s : Shell Cmd Ctx F) (cmd_id : ShellCommandId)
    (dependent_cmds : List ShellCommandId) : Except Fault (Shell Cmd Ctx F) :=
  if valid_command_id s cmd_id = true then
    if dependent_cmds.all (fun dependent_cmd => valid_command_id s dependent_cmd) = true then
      match assign_at s.command_dependencies_ cmd_id dependent_cmds with
      | Except.ok ds => Except.ok { s with command_dependencies_ := ds }
      | Except.error e => Except.error e
    else Except.error Fault.assertion
  else Except.error Fault.assertion

end Registry

section Dispatch

variable {Cmd Ctx T F : Type}

/-! ## The dispatcher (shell.cpp lines 209-236) -/

/-- `Shell<T>::execute_command(cmd_line, common_context)`. The line is
tokenised and `tokens[0]` is looked up in the name map. An unknown name is
logged and the call ends. Otherwise the parser is run on the context of the
command found; on failure the options of the command are printed and the
call ends; on success the context is echoed and the stored execute binding is
applied to the host context and the command's context, with no test of
whether the binding is empty. -/
def execute_command (X : Externals Cmd Ctx) (s : Shell Cmd Ctx F) (cmd_line : String)
    (common_context : T) : Outcome Cmd Ctx T F :=
  let tokens := X.split cmd_line
  match tokens[0]? with
  | none => ⟨s, [], some Fault.index_out_of_bounds⟩
  | some token0 =>
    let cmd_id := command s token0
    if cmd_id = ShellCommandId.INVALID then
      ⟨s, [Event.log ("Try to call a command '" ++ token0 ++ "' which is not defined!\n")], none⟩
    else
      match s.commands_[cmd_id.toSize]?, s.command_contexts_[cmd_id.toSize]? with
      | some cmd, some ctx =>
        let parsed := X.parse_command tokens cmd ctx
        let s1 : Shell Cmd Ctx F :=
          { s with command_contexts_ := s.command_contexts_.set cmd_id.toSize parsed.2 }
        if parsed.1 = false then
          ⟨s1, [Event.parse_command tokens cmd ctx, Event.print_command_options cmd], none⟩
        else
          match s.command_execute_functions_[cmd_id.toSize]? with
          | none =>
            ⟨s1, [Event.parse_command tokens cmd ctx, Event.print_command_context cmd parsed.2],
              some Fault.index_out_of_bounds⟩
          | some binding =>
            ⟨s1, [Event.parse_command tokens cmd ctx, Event.print_command_context cmd parsed.2,
                  Event.invoke binding common_context parsed.2],
              match binding with
              | some _ => none
              | none => some Fault.bad_function_call⟩
      | _, _ => ⟨s, [], some Fault.index_out_of_bounds⟩

/-! ## Script mode (shell.cpp lines 165-204) -/

/-- The lines that successive calls of `getline(fp, line)` deliver for a file
of the given characters, until the call that fails at the end of the file: a
line ends at a newline or at the end of the file, and a newline that ends the
file opens no further line. -/
def getlines_chars : List Char → List (List Char)
  | [] => []
  | c :: cs =>
    if c = '\n' then [] :: getlines_chars cs
    else
      match getlines_chars cs with
      | [] => [[c]]
      | l :: ls => (c :: l) :: ls

/-- The lines of a file, as strings. -/
def getlines (content : String) : List String :=
  (getlines_chars content.data).map String.mk

/-- One call of `getline` on the unread characters: `none` when nothing is
left (the stream fails), else the line read and what remains behind its
newline. -/
def getline (unread : List Char) : Option (List Char × List Char) :=
  match unread with
  | [] => none
  | _ :: _ =>
    some (unread.takeWhile (fun c => c ≠ '\n'), (unread.dropWhile (fun c => c ≠ '\n')).drop 1)

/-- `line.front()`, which has a value only on a non-empty string. -/
def front (line : String) : Option Char := line.data.head?

/-- `line.find_first_of(c)`, with `none` for `std::string::npos`. -/
def find_first_of (line : String) (c : Char) : Option Nat :=
  if c ∈ line.data then some (line.data.indexOf c) else none

/-- `line.substr(0, len)` -/
def substr0 (line : String) (len : Nat) : String := String.mk (line.data.take len)

/-- The command part of a line, lines 194-199: the text before the first '#',
or the whole line when it has none. -/
def cmd_part_of (line : String) : String :=
  match find_first_of line '#' with
  | some cmd_end_pos => substr0 line cmd_end_pos
  | none => line

/-- The text that a `const char*` stands for: `text.c_str()` handed to a
parameter of type `const char*`, or a `char*` line of `readline`, is read up
to its first NUL byte. -/
def c_str (text : String) : String :=
  String.mk (text.data.takeWhile (fun c => decide (c ≠ '\x00')))

/-- The loop `while (getline(fp, line))` of `run_script_mode`, over the lines
that are still to be read. `line.front()` is evaluated first, on every line;
the command part is handed to `execute_command` as `cmd_part.c_str()`. -/
def script_loop (X : Externals Cmd Ctx) :
    List String → Shell Cmd Ctx F → T → Outcome Cmd Ctx T F
  | [], s, _ => ⟨s, [], none⟩
  | line :: rest, s, common_context =>
    match front line with
    | none => ⟨s, [], some Fault.front_of_empty_string⟩
    | some c =>
      if c = '#' then script_loop X rest s common_context
      else
        let cmd_part := cmd_part_of line
        let o := execute_command X s (c_str cmd_part) common_context
        match o.fault with
        | some fault =>
          ⟨o.shell, Event.execute_command (c_str cmd_part) :: o.trace, some fault⟩
        | none =>
          let r := script_loop X rest o.shell common_context
          ⟨r.shell, Event.execute_command (c_str cmd_part) :: (o.trace ++ r.trace), r.fault⟩

/-- The log lines that open `run_script_mode`. -/
def script_banner (s : Shell Cmd Ctx F) (script_file_name : String) : List (Event Cmd Ctx T F) :=
  Event.log ("Reading script file " ++ script_file_name ++ "...\n") ::
    (if s.title.isEmpty then [] else [Event.log (s.title ++ "\n")])

/-- `Shell<T>::run_script_mode(script_file_name, context)`; `file` is the
content of the file, or `none` when the stream cannot be opened. -/
def run_script_mode (X : Externals Cmd Ctx) (s : Shell Cmd Ctx F) (script_file_name : String)
    (file : Option String) (common_context : T) : Outcome Cmd Ctx T F :=
  match file with
  | none =>
    ⟨s, script_banner s script_file_name ++
        [Event.log ("Fail to open the script file: " ++ script_file_name ++
          "! Please check its location\n")], none⟩
  | some content =>
    let r := script_loop X (getlines content) s common_context
    ⟨r.shell, script_banner s script_file_name ++ r.trace, r.fault⟩

/-- The command lines handed to `execute_command`, in the order of the calls. -/
def dispatched : List (Event Cmd Ctx T F) → List String
  | [] => []
  | Event.execute_command cmd_line :: es => cmd_line :: dispatched es
  | _ :: es => dispatched es

/-- The applications of an execute binding, in order. -/
def invocations : List (Event Cmd Ctx T F) → List (Option F × T × Ctx)
  | [] => []
  | Event.invoke binding common_context ctx :: es => (binding, common_context, ctx) :: invocations es
  | _ :: es => invocations es

/-- The texts sent to the log, in order. -/
def logged : List (Event Cmd Ctx T F) → List String
  | [] => []
  | Event.log text :: es => text :: logged es
  | _ :: es => logged es

/-- The number of calls of the option parser. -/
def parser_calls : List (Event Cmd Ctx T F) → Nat
  | [] => 0
  | Event.parse_command _ _ _ :: es => parser_calls es + 1
  | _ :: es => parser_calls es

/-! ## Interactive mode (shell.cpp lines 138-163) -/

/-- `strlen(cmd_line)`: the number of characters before the first NUL. -/
def strlen (cmd_line : String) : Nat := (c_str cmd_line).data.length

/-- The loop `while ((cmd_line = readline(prompt)) != nullptr)` of
`run_interactive_mode`, over the lines that `readline` still delivers before
it returns `nullptr`; a line is a `char*`. A line of positive length is
dispatched and then added to the history; no other test is made of the line. -/
def interactive_loop (X : Externals Cmd Ctx) :
    List String → Shell Cmd Ctx F → T → Outcome Cmd Ctx T F
  | [], s, _ => ⟨s, [], none⟩
  | cmd_line :: rest, s, common_context =>
    if 0 < strlen cmd_line then
      let o := execute_command X s (c_str cmd_line) common_context
      match o.fault with
      | some fault => ⟨o.shell, Event.execute_command (c_str cmd_line) :: o.trace, some fault⟩
      | none =>
        let r := interactive_loop X rest o.shell common_context
        ⟨r.shell,
          Event.execute_command (c_str cmd_line) ::
            (o.trace ++ Event.add_history (c_str cmd_line) :: r.trace),
          r.fault⟩
    else interactive_loop X rest s common_context

/-- The log lines that open `run_interactive_mode`. -/
def interactive_banner (s : Shell Cmd Ctx F) : List (Event Cmd Ctx T F) :=
  Event.log ("Start interactive mode of " ++ s.name ++ "...\n") ::
    (if s.title.isEmpty then [] else [Event.log (s.title ++ "\n")])

/-- `Shell<T>::run_interactive_mode(context)`; `input` holds the lines that
`readline` delivers, in order, before it signals the end of the input. -/
def run_interactive_mode (X : Externals Cmd Ctx) (s : Shell Cmd Ctx F) (input : List String)
    (common_context : T) : Outcome Cmd Ctx T F :=
  let r := interactive_loop X input s common_context
  ⟨r.shell, interactive_banner s ++ r.trace, r.fault⟩

/-- What a runner does with a line: hand it to `execute_command`, or add it
to the history. -/
inductive RunnerCall where
  | dispatch (cmd_line : String)
  | history (cmd_line : String)
deriving DecidableEq, Repr

/-- The dispatches and the history entries of a trace, in order. -/
def runner_calls : List (Event Cmd Ctx T F) → List RunnerCall
  | [] => []
  | Event.execute_command cmd_line :: es => RunnerCall.dispatch cmd_line :: runner_calls es
  | Event.add_history cmd_line :: es => RunnerCall.history cmd_line :: runner_calls es
  | _ :: es => runner_calls es

/-- The calls of an interactive session in which every dispatch returns:
each line of positive length is dispatched and then recorded, a line of
length zero is passed over. -/
def interactive_calls : List String → List RunnerCall
  | [] => []
  | cmd_line :: rest =>
    if 0 < strlen cmd_line then
      RunnerCall.dispatch (c_str cmd_line) :: RunnerCall.history (c_str cmd_line) ::
        interactive_calls rest
    else interactive_calls rest

end Dispatch

/-! ## The script format as the spec words it -/

/-- The effective lines of a script, in the words of the spec: a line whose
first character is '#' is left out; of every other line the text before its
first '#' is kept, the whole line when it has none. -/
def effective_lines (lines : List String) : List String :=
  (lines.filter (fun line => decide (front line ≠ some '#'))).map
    (fun line => String.mk (line.data.takeWhile (fun c => decide (c ≠ '#'))))

/-- The lines that the script runner delivers when no fault stops it: a line
whose first character is '#' is left out; of every other line the text before
its first '#' or NUL byte is kept, the whole line when it has neither. -/
def delivered_lines (lines : List String) : List String :=
  (lines.filter (fun line => decide (front line ≠ some '#'))).map
    (fun line =>
      String.mk (line.data.takeWhile (fun c => decide (c ≠ '#') && decide (c ≠ '\x00'))))

/-! ## Shell states -/

section States

variable {Cmd Ctx F : Type}

/-- The shape of the registry: the six containers indexed by an id have one
length and slot `i` of `command_ids_` holds the id of index `i`. -/
structure WellFormed (s : Shell Cmd Ctx F) : Prop where
  commands_length : s.commands_.length = s.command_ids_.length
  contexts_length : s.command_contexts_.length = s.command_ids_.length
  description_length : s.command_description_.length = s.command_ids_.length
  functions_length : s.command_execute_functions_.length = s.command_ids_.length
  dependencies_length : s.command_dependencies_.length = s.command_ids_.length
  ids_dense : ∀ i, i < s.command_ids_.length → s.command_ids_[i]? = some (ShellCommandId.mk i)

/-- The states a shell goes through from its construction under calls of
`add_command` (accepted or rejected), `add_command_execute_function` and
`add_command_dependency` that return. -/
inductive Reachable (X : Externals Cmd Ctx) : Shell Cmd Ctx F → Prop where
  | new (name : String) : Reachable X (Shell.new name)
  | add_command {s : Shell Cmd Ctx F} (cmd : Cmd) (descr : String) :
      Reachable X s → Reachable X (add_command X s cmd descr).1
  | add_command_execute_function {s s1 : Shell Cmd Ctx F} (cmd_id : ShellCommandId)
      (exec_func : Option F) :
      Reachable X s → add_command_execute_function s cmd_id exec_func = Except.ok s1 →
      Reachable X s1
  | add_command_dependency {s s1 : Shell Cmd Ctx F} (cmd_id : ShellCommandId)
      (dependent_cmds : List ShellCommandId) :
      Reachable X s → add_command_dependency s cmd_id dependent_cmds = Except.ok s1 →
      Reachable X s1

/-- The states a shell can pass to from a given one: by the registration
operations and by calls of `execute_command` that return or end in the
exception of an empty binding. -/
inductive Evolves (X : Externals Cmd Ctx) (T : Type) :
    Shell Cmd Ctx F → Shell Cmd Ctx F → Prop where
  | refl (s : Shell Cmd Ctx F) : Evolves X T s s
  | add_command {s s1 : Shell Cmd Ctx F} (cmd : Cmd) (descr : String) :
      Evolves X T s s1 → Evolves X T s (add_command X s1 cmd descr).1
  | add_command_execute_function {s s1 s2 : Shell Cmd Ctx F} (cmd_id : ShellCommandId)
      (exec_func : Option F) :
      Evolves X T s s1 → add_command_execute_function s1 cmd_id exec_func = Except.ok s2 →
      Evolves X T s s2
  | add_command_dependency {s s1 s2 : Shell Cmd Ctx F} (cmd_id : ShellCommandId)
      (dependent_cmds : List ShellCommandId) :
      Evolves X T s s1 → add_command_dependency s1 cmd_id dependent_cmds = Except.ok s2 →
      Evolves X T s s2
  | execute_command {s s1 : Shell Cmd Ctx F} (cmd_line : String) (common_context : T) :
      Evolves X T s s1 →
      (execute_command X s1 cmd_line common_context).fault ≠ some Fault.index_out_of_bounds →
      Evolves X T s (execute_command X s1 cmd_line common_context).shell

end States

/-! ## A concrete instance, for evaluation -/

/-- Modelled from the spec: the tokenizer `openfpga::StringToken::split(" ")`,
whose code is in the library libopenfpgautil. The spec has it split a raw line
into its whitespace-delimited tokens, at the ASCII space only: the tokens are
the maximal runs of characters other than the space, so a line of spaces has
no token. -/
def split_spaces (line : String) : List String :=
  ((line.data.splitOn ' ').filter (fun t => decide (t ≠ []))).map String.mk

/-- Collaborators for evaluation: a command is its name, a context is the
list of tokens last parsed, the parser accepts a line of at most three
tokens, and the name map is given the id of index 0. -/
def demo : Externals String (List String) where
  cmd_name := fun cmd => cmd
  new_context := fun _ => []
  split := split_spaces
  parse_command := fun tokens _ _ => (decide (tokens.length ≤ 3), tokens)
  id_of_name := fun _ => ShellCommandId.mk 0

/-- The shell named "shell" after `add_command` of the command "help", to
which no callback is bound. -/
def demo_help : Shell String (List String) Nat :=
  (add_command demo (Shell.new "shell") "help" "show help").1

/-- The shell `demo_help` after `add_command_execute_function` has bound the
callback 7 to the id of index 0, the id of "help". -/
def demo_help_bound : Shell String (List String) Nat :=
  match add_command_execute_function demo_help (ShellCommandId.mk 0) (some 7) with
  | Except.ok s => s
  | Except.error _ => demo_help

/-- The shell named "run" after `add_command` of the command "run": the name
map resolves "run" to the id of index 0, and no callback is bound. -/
def demo_unbound : Shell String (List String) Nat :=
  (add_command demo (Shell.new "run") "run" "run a flow").1

/-- The shell `demo_unbound` after `add_command_execute_function` has bound
the callback 7 to the id of index 0. -/
def demo_bound : Shell String (List String) Nat :=
  match add_command_execute_function demo_unbound (ShellCommandId.mk 0) (some 7) with
  | Except.ok s => s
  | Except.error _ => demo_unbound

/-! ## The shape of the registry is kept by every registration operation -/

section Shape

variable {Cmd Ctx F : Type}

theorem wellFormed_new (name : String) : WellFormed (Shell.new name : Shell Cmd Ctx F) := by
  constructor <;> simp [Shell.new]

theorem add_command_rejected (X : Externals Cmd Ctx) (s : Shell Cmd Ctx F) (cmd : Cmd)
    (descr : String) (id0 : ShellCommandId)
    (h : s.command_name2ids_ (X.cmd_name cmd) = some id0) :
    add_command X s cmd descr = (s, ShellCommandId.INVALID) := by
  simp [add_command, h]

theorem add_command_accepted (X : Externals Cmd Ctx) (s : Shell Cmd Ctx F) (cmd : Cmd)
    (descr : String) (h : s.command_name2ids_ (X.cmd_name cmd) = none) :
    add_command X s cmd descr =
      ({ s with
          command_ids_ := s.command_ids_ ++ [ShellCommandId.mk s.command_ids_.length]
          commands_ := s.commands_ ++ [cmd]
          command_contexts_ := s.command_contexts_ ++ [X.new_context cmd]
          command_description_ := s.command_description_ ++ [descr]
          command_execute_functions_ := s.command_execute_functions_ ++ [none]
          command_dependencies_ := s.command_dependencies_ ++ [[]]
          command_name2ids_ :=
            map_assign s.command_name2ids_ s.name (X.id_of_name (X.cmd_name cmd)) },
        ShellCommandId.mk s.command_ids_.length) := by
  simp [add_command, h]

theorem wellFormed_add_command (X : Externals Cmd Ctx) (s : Shell Cmd Ctx F) (cmd : Cmd)
    (descr : String) (hs : WellFormed s) : WellFormed (add_command X s cmd descr).1 := by
  cases h : s.command_name2ids_ (X.cmd_name cmd) with
  | some id0 => rw [add_command_rejected X s cmd descr id0 h]; exact hs
  | none =>
    rw [add_command_accepted X s cmd descr h]
    constructor
    · simp [hs.commands_length]
    · simp [hs.contexts_length]
    · simp [hs.description_length]
    · simp [hs.functions_length]
    · simp [hs.dependencies_length]
    · intro i hi
      simp only [List.length_append, List.length_singleton] at hi
      by_cases hlt : i < s.command_ids_.length
      · simp only [List.getElem?_append_left hlt]
        exact hs.ids_dense i hlt
      · have hi2 : i = s.command_ids_.length := by omega
        subst hi2
        simp

theorem wellFormed_add_command_execute_function (s s1 : Shell Cmd Ctx F)
    (cmd_id : ShellCommandId) (exec_func : Option F) (hs : WellFormed s)
    (h : add_command_execute_function s cmd_id exec_func = Except.ok s1) : WellFormed s1 := by
  unfold add_command_execute_function assign_at at h
  split at h
  · split at h
    · rename_i fs hfs
      split at hfs
      · injection hfs with hfs
        injection h with h
        subst h; subst hfs
        constructor
        · exact hs.commands_length
        · exact hs.contexts_length
        · exact hs.description_length
        · simp [hs.functions_length]
        · exact hs.dependencies_length
        · exact hs.ids_dense
      · cases hfs
    · cases h
  · cases h

theorem wellFormed_add_command_dependency (s s1 : Shell Cmd Ctx F)
    (cmd_id : ShellCommandId) (dependent_cmds : List ShellCommandId) (hs : WellFormed s)
    (h : add_command_dependency s cmd_id dependent_cmds = Except.ok s1) : WellFormed s1 := by
  unfold add_command_dependency assign_at at h
  split at h
  · split at h
    · split at h
      · rename_i ds hds
        split at hds
        · injection hds with hds
          injection h with h
          subst h; subst hds
          constructor
          · exact hs.commands_length
          · exact hs.contexts_length
          · exact hs.description_length
          · exact hs.functions_length
          · simp [hs.dependencies_length]
          · exact hs.ids_dense
        · cases hds
      · cases h
    · cases h
  · cases h

theorem Reachable.wellFormed {X : Externals Cmd Ctx} {s : Shell Cmd Ctx F}
    (h : Reachable X s) : WellFormed s := by
  induction h with
  | new name => exact wellFormed_new name
  | add_command cmd descr _ ih => exact wellFormed_add_command X _ cmd descr ih
  | add_command_execute_function cmd_id exec_func _ hstep ih =>
    exact wellFormed_add_command_execute_function _ _ cmd_id exec_func ih hstep
  | add_command_dependency cmd_id dependent_cmds _ hstep ih =>
    exact wellFormed_add_command_dependency _ _ cmd_id dependent_cmds ih hstep

theorem valid_command_id_mk (s : Shell Cmd Ctx F) (hs : WellFormed s) (i : Nat) :
    valid_command_id s (ShellCommandId.mk i) = decide (i < s.command_ids_.length) := by
  unfold valid_command_id
  by_cases hi : i < s.command_ids_.length
  · simp [ShellCommandId.toSize, hi, hs.ids_dense i hi]
  · simp [ShellCommandId.toSize, hi]

theorem valid_command_id_INVALID (s : Shell Cmd Ctx F) (hs : WellFormed s) :
    valid_command_id s ShellCommandId.INVALID = false := by
  unfold valid_command_id
  by_cases hi : SIZE_MAX < s.command_ids_.length
  · simp [ShellCommandId.toSize, hs.ids_dense SIZE_MAX hi]
  · simp [ShellCommandId.toSize, hi]

theorem wellFormed_demo_unbound : WellFormed demo_unbound :=
  wellFormed_add_command demo _ "run" "run a flow" (wellFormed_new "run")

theorem wellFormed_demo_bound : WellFormed demo_bound :=
  wellFormed_add_command_execute_function demo_unbound demo_bound (ShellCommandId.mk 0) (some 7)
    wellFormed_demo_unbound rfl

end Shape

/-! ## Registration: `add_command` -/

section Registration

variable {Cmd Ctx F : Type}

/-- C1 (the code at the failing inputs). `add_command` writes the name map
under the shell's own name, not under the name of the command: whenever the
command's name is not a key of the map and differs from the shell's name,
`add_command` returns the next id while the lookup of the command's name in
the resulting shell still returns `INVALID`. -/
theorem lookup_after_add_command_misses (X : Externals Cmd Ctx) (s : Shell Cmd Ctx F)
    (cmd : Cmd) (descr : String)
    (hfree : s.command_name2ids_ (X.cmd_name cmd) = none)
    (hname : X.cmd_name cmd ≠ s.name) :
    (add_command X s cmd descr).2 = ShellCommandId.mk s.command_ids_.length ∧
      command (add_command X s cmd descr).1 (X.cmd_name cmd) = ShellCommandId.INVALID := by
  rw [add_command_accepted X s cmd descr hfree]
  refine ⟨rfl, ?_⟩
  simp [command, map_assign, hname, hfree]

/-- C1, at a shell named "shell" and a command named "help". -/
theorem lookup_after_add_command_misses_witness :
    (add_command demo (Shell.new "shell" : Shell String (List String) Nat) "help" "show help").2
        = ShellCommandId.mk 0 ∧
      command (add_command demo (Shell.new "shell" : Shell String (List String) Nat)
        "help" "show help").1 "help" = ShellCommandId.INVALID :=
  lookup_after_add_command_misses demo (Shell.new "shell") "help" "show help" rfl (by decide)

/-- C2 (the code at the failing inputs). A second command of the same name is
accepted: when the name is not a key of the map and differs from the shell's
name, two calls of `add_command` with commands of that name return the ids
`n` and `n + 1`, neither of them `INVALID`, and the registry has grown by
two. -/
theorem add_command_same_name_twice (X : Externals Cmd Ctx) (s : Shell Cmd Ctx F)
    (c1 c2 : Cmd) (d1 d2 : String)
    (hsame : X.cmd_name c2 = X.cmd_name c1)
    (hfree : s.command_name2ids_ (X.cmd_name c1) = none)
    (hname : X.cmd_name c1 ≠ s.name) :
    (add_command X s c1 d1).2 = ShellCommandId.mk s.command_ids_.length ∧
      (add_command X (add_command X s c1 d1).1 c2 d2).2
        = ShellCommandId.mk (s.command_ids_.length + 1) ∧
      (add_command X (add_command X s c1 d1).1 c2 d2).1.command_ids_.length
        = s.command_ids_.length + 2 := by
  have hfree2 : (add_command X s c1 d1).1.command_name2ids_ (X.cmd_name c2) = none := by
    rw [add_command_accepted X s c1 d1 hfree, hsame]
    simp [map_assign, hname, hfree]
  rw [add_command_accepted X _ c2 d2 hfree2, add_command_accepted X s c1 d1 hfree]
  simp

/-- C2, at a shell named "shell" and two commands named "help". -/
theorem add_command_same_name_twice_witness :
    (add_command demo (Shell.new "shell" : Shell String (List String) Nat) "help" "first").2
        = ShellCommandId.mk 0 ∧
      (add_command demo
          (add_command demo (Shell.new "shell" : Shell String (List String) Nat)
            "help" "first").1 "help" "second").2 = ShellCommandId.mk (0 + 1) ∧
      (add_command demo
          (add_command demo (Shell.new "shell" : Shell String (List String) Nat)
            "help" "first").1 "help" "second").1.command_ids_.length = 0 + 2 :=
  add_command_same_name_twice demo (Shell.new "shell") "help" "help" "first" "second"
    rfl rfl (by decide)

/-- C3. In a shell of well-formed registry, a command whose name is not a key
of the name map is given the id whose index is the number of commands
registered so far; after the call that id is valid, `command(id)` is the
command, `command_description(id)` the description, `command_dependency(id)`
the empty list, the execute binding at the id is empty, and
`command_context(id)` is `CommandContext(cmd)`. -/
theorem add_command_registers (X : Externals Cmd Ctx) (s : Shell Cmd Ctx F)
    (cmd : Cmd) (descr : String) (hs : WellFormed s)
    (hfree : s.command_name2ids_ (X.cmd_name cmd) = none) :
    (add_command X s cmd descr).2 = ShellCommandId.mk s.command_ids_.length ∧
      valid_command_id (add_command X s cmd descr).1 (add_command X s cmd descr).2 = true ∧
      command_by_id (add_command X s cmd descr).1 (add_command X s cmd descr).2
        = Except.ok cmd ∧
      command_description (add_command X s cmd descr).1 (add_command X s cmd descr).2
        = Except.ok descr ∧
      command_dependency (add_command X s cmd descr).1 (add_command X s cmd descr).2
        = Except.ok [] ∧
      (add_command X s cmd descr).1.command_execute_functions_[s.command_ids_.length]?
        = some none ∧
      command_context (add_command X s cmd descr).1 (add_command X s cmd descr).2
        = Except.ok (X.new_context cmd) := by
  have hw := wellFormed_add_command X s cmd descr hs
  have hv : valid_command_id (add_command X s cmd descr).1
      (ShellCommandId.mk s.command_ids_.length) = true := by
    rw [valid_command_id_mk _ hw]
    rw [add_command_accepted X s cmd descr hfree]
    simp
  have h1 : (s.commands_ ++ [cmd])[s.command_ids_.length]? = some cmd := by
    rw [← hs.commands_length]; simp
  have h2 : (s.command_description_ ++ [descr])[s.command_ids_.length]? = some descr := by
    rw [← hs.description_length]; simp
  have h3 : (s.command_dependencies_ ++ [([] : List ShellCommandId)])[s.command_ids_.length]?
      = some [] := by
    rw [← hs.dependencies_length]; simp
  have h4 : (s.command_execute_functions_ ++ [(none : Option F)])[s.command_ids_.length]?
      = some none := by
    rw [← hs.functions_length]; simp
  have h5 : (s.command_contexts_ ++ [X.new_context cmd])[s.command_ids_.length]?
      = some (X.new_context cmd) := by
    rw [← hs.contexts_length]; simp
  rw [add_command_accepted X s cmd descr hfree] at hv ⊢
  simp only at hv
  refine ⟨rfl, hv, ?_, ?_, ?_, h4, ?_⟩
  · simp only [command_by_id, hv, at_id, ShellCommandId.toSize, h1, if_true]
  · simp only [command_description, hv, at_id, ShellCommandId.toSize, h2, if_true]
  · simp only [command_dependency, hv, at_id, ShellCommandId.toSize, h3, if_true]
  · simp only [command_context, hv, at_id, ShellCommandId.toSize, h5, if_true]

/-- C3, at the first registration in a new shell. -/
theorem add_command_registers_witness :
    (add_command demo (Shell.new "shell" : Shell String (List String) Nat) "help" "show help").2
        = ShellCommandId.mk 0 ∧
      command_by_id
          (add_command demo (Shell.new "shell" : Shell String (List String) Nat)
            "help" "show help").1 (ShellCommandId.mk 0) = Except.ok "help" ∧
      command_description
          (add_command demo (Shell.new "shell" : Shell String (List String) Nat)
            "help" "show help").1 (ShellCommandId.mk 0) = Except.ok "show help" := by
  have h := add_command_registers demo (Shell.new "shell" : Shell String (List String) Nat)
    "help" "show help" (wellFormed_new "shell") rfl
  exact ⟨h.1, h.2.2.1, h.2.2.2.1⟩

/-- C4. In every shell reachable from a new one by `add_command`,
`add_command_execute_function` and `add_command_dependency`, with `n` the
number of registered commands, `valid_command_id` is true of the id of every
index below `n`, false of the id of every index from `n` on, and false of the
`INVALID` sentinel. -/
theorem valid_command_id_reachable (X : Externals Cmd Ctx) (s : Shell Cmd Ctx F)
    (h : Reachable X s) :
    (∀ i, i < s.command_ids_.length → valid_command_id s (ShellCommandId.mk i) = true) ∧
      (∀ i, s.command_ids_.length ≤ i → valid_command_id s (ShellCommandId.mk i) = false) ∧
      valid_command_id s ShellCommandId.INVALID = false := by
  have hs := h.wellFormed
  refine ⟨?_, ?_, valid_command_id_INVALID s hs⟩
  · intro i hi
    rw [valid_command_id_mk s hs]
    exact decide_eq_true hi
  · intro i hi
    rw [valid_command_id_mk s hs]
    exact decide_eq_false (by omega)

/-- C4, at the shell that holds the two commands "help" and "exit", the
second bound to a callback and depending on the first. -/
theorem valid_command_id_reachable_witness :
    valid_command_id
        (add_command demo
          (add_command demo (Shell.new "shell" : Shell String (List String) Nat)
            "help" "show help").1 "exit" "leave").1 (ShellCommandId.mk 1) = true ∧
      valid_command_id
        (add_command demo
          (add_command demo (Shell.new "shell" : Shell String (List String) Nat)
            "help" "show help").1 "exit" "leave").1 (ShellCommandId.mk 2) = false ∧
      valid_command_id
        (add_command demo
          (add_command demo (Shell.new "shell" : Shell String (List String) Nat)
            "help" "show help").1 "exit" "leave").1 ShellCommandId.INVALID = false := by
  have h := valid_command_id_reachable demo _
    (Reachable.add_command "exit" "leave"
      (Reachable.add_command "help" "show help"
        (Reachable.new "shell" : Reachable demo (Shell.new "shell" : Shell String (List String) Nat))))
  exact ⟨h.1 1 (by decide), h.2.1 2 (by decide), h.2.2⟩

end Registration

/-! ## The dispatcher -/

section Dispatcher

variable {Cmd Ctx T F : Type}

theorem at_id_ok {α : Type} (container : List α) (cmd_id : ShellCommandId) (a : α)
    (h : at_id container cmd_id = Except.ok a) : container[cmd_id.toSize]? = some a := by
  unfold at_id at h
  split at h
  · rename_i b hb
    injection h with h
    rw [hb, h]
  · cases h

theorem valid_ne_INVALID (s : Shell Cmd Ctx F) (hs : WellFormed s) (cmd_id : ShellCommandId)
    (h : valid_command_id s cmd_id = true) : cmd_id ≠ ShellCommandId.INVALID := by
  intro hid
  rw [hid, valid_command_id_INVALID s hs] at h
  cases h

theorem command_by_id_ok (s : Shell Cmd Ctx F) (cmd_id : ShellCommandId) (cmd : Cmd)
    (h : command_by_id s cmd_id = Except.ok cmd) :
    valid_command_id s cmd_id = true ∧ s.commands_[cmd_id.toSize]? = some cmd := by
  unfold command_by_id at h
  split at h
  · rename_i hv
    exact ⟨hv, at_id_ok _ _ _ h⟩
  · cases h

/-- The dispatcher on a line whose first token the name map does not resolve. -/
theorem execute_command_unknown (X : Externals Cmd Ctx) (s : Shell Cmd Ctx F)
    (cmd_line : String) (common_context : T) (token0 : String) (rest : List String)
    (htokens : X.split cmd_line = token0 :: rest)
    (hid : command s token0 = ShellCommandId.INVALID) :
    execute_command X s cmd_line common_context =
      ⟨s, [Event.log ("Try to call a command '" ++ token0 ++ "' which is not defined!\n")],
        none⟩ := by
  simp [execute_command, htokens, hid]

/-- The dispatcher on a line whose first token resolves to a command for
which the parser fails. -/
theorem execute_command_parse_failure (X : Externals Cmd Ctx) (s : Shell Cmd Ctx F)
    (cmd_line : String) (common_context : T) (token0 : String) (rest : List String)
    (cmd_id : ShellCommandId) (cmd : Cmd) (ctx : Ctx)
    (htokens : X.split cmd_line = token0 :: rest)
    (hid : command s token0 = cmd_id) (hne : cmd_id ≠ ShellCommandId.INVALID)
    (hcmd : s.commands_[cmd_id.toSize]? = some cmd)
    (hctx : s.command_contexts_[cmd_id.toSize]? = some ctx)
    (hparse : (X.parse_command (token0 :: rest) cmd ctx).1 = false) :
    execute_command X s cmd_line common_context =
      ⟨{ s with command_contexts_ :=
            s.command_contexts_.set cmd_id.toSize (X.parse_command (token0 :: rest) cmd ctx).2 },
        [Event.parse_command (token0 :: rest) cmd ctx, Event.print_command_options cmd],
        none⟩ := by
  simp [execute_command, htokens, hid, hne, hcmd, hctx, hparse]

/-- C6. When the name map does not resolve the first token of the line,
`execute_command` leaves the shell as it was, every `CommandContext`
included, and its only effect is one line of log: no binding is applied and
the option parser is not called. -/
theorem execute_command_unknown_command (X : Externals Cmd Ctx) (s : Shell Cmd Ctx F)
    (cmd_line : String) (common_context : T) (token0 : String) (rest : List String)
    (htokens : X.split cmd_line = token0 :: rest)
    (hid : command s token0 = ShellCommandId.INVALID) :
    (execute_command X s cmd_line common_context).shell = s ∧
      (execute_command X s cmd_line common_context).trace
        = [Event.log ("Try to call a command '" ++ token0 ++ "' which is not defined!\n")] ∧
      invocations (execute_command X s cmd_line common_context).trace = [] ∧
      parser_calls (execute_command X s cmd_line common_context).trace = 0 ∧
      (logged (execute_command X s cmd_line common_context).trace).length = 1 ∧
      (execute_command X s cmd_line common_context).fault = none := by
  rw [execute_command_unknown X s cmd_line common_context token0 rest htokens hid]
  exact ⟨rfl, rfl, rfl, rfl, rfl, rfl⟩

/-- C6, at a new shell and the line "foo bar". -/
theorem execute_command_unknown_command_witness :
    (execute_command demo (Shell.new "shell" : Shell String (List String) Nat) "foo bar"
        (42 : Nat)).trace
      = [Event.log ("Try to call a command '" ++ "foo" ++ "' which is not defined!\n")] :=
  (execute_command_unknown_command demo (Shell.new "shell") "foo bar" 42 "foo" ["bar"]
    (by decide) (by decide)).2.1

end Dispatcher

/-! ## Script mode -/

section Script

variable {Cmd Ctx T F : Type}

/-- The lines of a file are what repeated calls of `getline` read. -/
theorem getlines_chars_getline (unread : List Char) :
    getlines_chars unread =
      match getline unread with
      | none => []
      | some (line, behind) => line :: getlines_chars behind := by
  induction unread with
  | nil => rfl
  | cons c cs ih =>
    by_cases hc : c = '\n'
    · simp [getlines_chars, getline, hc]
    · cases cs with
      | nil => simp [getlines_chars, getline, hc]
      | cons d ds =>
        rw [getlines_chars, if_neg hc, ih]
        simp [getline, hc]

theorem take_indexOf_eq_takeWhile (a : Char) (l : List Char) :
    l.take (l.indexOf a) = l.takeWhile (fun c => decide (c ≠ a)) := by
  induction l with
  | nil => rfl
  | cons b bs ih =>
    by_cases hb : b = a
    · simp [hb, List.takeWhile]
    · simp [List.indexOf_cons_ne _ hb, List.takeWhile, hb, ih]

theorem takeWhile_ne_of_not_mem (a : Char) (l : List Char) (h : a ∉ l) :
    l.takeWhile (fun c => decide (c ≠ a)) = l := by
  induction l with
  | nil => rfl
  | cons b bs ih =>
    have hb : b ≠ a := fun hba => h (by simp [hba])
    have hbs : a ∉ bs := fun hm => h (List.mem_cons_of_mem _ hm)
    simp only [List.takeWhile, hb, ne_eq, not_false_eq_true, decide_True, ih hbs]

/-- The command part of a line is its text before the first '#'. -/
theorem cmd_part_of_eq (line : String) :
    cmd_part_of line = String.mk (line.data.takeWhile (fun c => decide (c ≠ '#'))) := by
  unfold cmd_part_of find_first_of
  by_cases h : '#' ∈ line.data
  · simp only [h, if_true, substr0, take_indexOf_eq_takeWhile]
  · simp only [h, if_false, takeWhile_ne_of_not_mem '#' line.data h]

theorem not_mem_cmd_part_of (line : String) : '#' ∉ (cmd_part_of line).data := by
  rw [cmd_part_of_eq]
  intro h
  have := List.mem_takeWhile_imp h
  simp at this

theorem dispatched_append (a b : List (Event Cmd Ctx T F)) :
    dispatched (a ++ b) = dispatched a ++ dispatched b := by
  induction a with
  | nil => rfl
  | cons e es ih => cases e <;> simp [dispatched, ih]

/-- The dispatcher calls itself on no line. -/
theorem dispatched_execute_command (X : Externals Cmd Ctx) (s : Shell Cmd Ctx F)
    (cmd_line : String) (common_context : T) :
    dispatched (execute_command X s cmd_line common_context).trace = [] := by
  unfold execute_command
  simp only
  split
  · rfl
  · split
    · rfl
    · split
      · split
        · rfl
        · split <;> rfl
      · rfl

theorem dispatched_script_banner (s : Shell Cmd Ctx F) (script_file_name : String) :
    dispatched (script_banner s script_file_name : List (Event Cmd Ctx T F)) = [] := by
  unfold script_banner
  split <;> rfl

theorem takeWhile_takeWhile (p q : Char → Bool) (l : List Char) :
    (l.takeWhile q).takeWhile p = l.takeWhile (fun c => q c && p c) := by
  induction l with
  | nil => rfl
  | cons b bs ih =>
    cases hq : q b
    · simp [List.takeWhile, hq]
    · cases hp : p b
      · simp [List.takeWhile, hq, hp]
      · simp [List.takeWhile, hq, hp, ih]

/-- What the script runner hands on of a line: its text before the first '#'
or NUL byte. -/
theorem c_str_cmd_part_of_eq (line : String) :
    c_str (cmd_part_of line)
      = String.mk (line.data.takeWhile (fun c => decide (c ≠ '#') && decide (c ≠ '\x00'))) := by
  rw [cmd_part_of_eq]
  simp only [c_str]
  rw [takeWhile_takeWhile]

theorem not_mem_c_str_cmd_part_of (line : String) : '#' ∉ (c_str (cmd_part_of line)).data := by
  rw [c_str_cmd_part_of_eq]
  intro h
  have := List.mem_takeWhile_imp h
  simp at this

theorem delivered_lines_comment (line : String) (rest : List String)
    (hf : front line = some '#') : delivered_lines (line :: rest) = delivered_lines rest := by
  simp [delivered_lines, List.filter, hf]

theorem delivered_lines_command (line : String) (rest : List String)
    (hf : front line ≠ some '#') :
    delivered_lines (line :: rest) = c_str (cmd_part_of line) :: delivered_lines rest := by
  simp [delivered_lines, List.filter, hf, c_str_cmd_part_of_eq]

theorem not_mem_delivered_lines (lines : List String) (l : String)
    (h : l ∈ delivered_lines lines) : '#' ∉ l.data := by
  unfold delivered_lines at h
  obtain ⟨line, _, rfl⟩ := List.mem_map.mp h
  rw [← c_str_cmd_part_of_eq]
  exact not_mem_c_str_cmd_part_of line

/-- The loop of the script runner at an empty line. -/
theorem script_loop_empty_line (X : Externals Cmd Ctx) (line : String) (rest : List String)
    (s : Shell Cmd Ctx F) (common_context : T) (hf : front line = none) :
    script_loop X (line :: rest) s common_context
      = ⟨s, [], some Fault.front_of_empty_string⟩ := by
  simp [script_loop, hf]

/-- The loop of the script runner at a line that starts with '#'. -/
theorem script_loop_comment (X : Externals Cmd Ctx) (line : String) (rest : List String)
    (s : Shell Cmd Ctx F) (common_context : T) (hf : front line = some '#') :
    script_loop X (line :: rest) s common_context = script_loop X rest s common_context := by
  simp [script_loop, hf]

/-- The loop of the script runner at a line whose dispatch ends in a fault:
the loop ends with it, and the lines behind are not read. -/
theorem script_loop_fault (X : Externals Cmd Ctx) (line : String) (rest : List String)
    (s : Shell Cmd Ctx F) (common_context : T) (c : Char) (fault : Fault)
    (hf : front line = some c) (hc : c ≠ '#')
    (hfault : (execute_command X s (c_str (cmd_part_of line)) common_context).fault
      = some fault) :
    script_loop X (line :: rest) s common_context
      = ⟨(execute_command X s (c_str (cmd_part_of line)) common_context).shell,
          Event.execute_command (c_str (cmd_part_of line)) ::
            (execute_command X s (c_str (cmd_part_of line)) common_context).trace,
          some fault⟩ := by
  simp [script_loop, hf, hc, hfault]

/-- The loop of the script runner at a line whose dispatch returns: the loop
goes on with the lines behind, in the shell that the dispatch left. -/
theorem script_loop_next (X : Externals Cmd Ctx) (line : String) (rest : List String)
    (s : Shell Cmd Ctx F) (common_context : T) (c : Char)
    (hf : front line = some c) (hc : c ≠ '#')
    (hfault : (execute_command X s (c_str (cmd_part_of line)) common_context).fault = none) :
    script_loop X (line :: rest) s common_context
      = ⟨(script_loop X rest
            (execute_command X s (c_str (cmd_part_of line)) common_context).shell
            common_context).shell,
          Event.execute_command (c_str (cmd_part_of line)) ::
            ((execute_command X s (c_str (cmd_part_of line)) common_context).trace ++
              (script_loop X rest
                (execute_command X s (c_str (cmd_part_of line)) common_context).shell
                common_context).trace),
          (script_loop X rest
            (execute_command X s (c_str (cmd_part_of line)) common_context).shell
            common_context).fault⟩ := by
  simp [script_loop, hf, hc, hfault]

/-- A dispatch that ends in a fault has got past the lookup of the first
token, if the line has one, and past the parser, if it was called: neither an
unknown command nor a parse failure is a fault. -/
theorem execute_command_fault_resolved (X : Externals Cmd Ctx) (s : Shell Cmd Ctx F)
    (cmd_line : String) (common_context : T) (fault : Fault)
    (h : (execute_command X s cmd_line common_context).fault = some fault) :
    ∀ token0 rest, X.split cmd_line = token0 :: rest →
      command s token0 ≠ ShellCommandId.INVALID ∧
      ∀ cmd ctx, s.commands_[(command s token0).toSize]? = some cmd →
        s.command_contexts_[(command s token0).toSize]? = some ctx →
        (X.parse_command (token0 :: rest) cmd ctx).1 = true := by
  intro token0 rest htokens
  have hne : command s token0 ≠ ShellCommandId.INVALID := by
    intro hid
    rw [execute_command_unknown X s cmd_line common_context token0 rest htokens hid] at h
    cases h
  refine ⟨hne, fun cmd ctx hcmd hctx => ?_⟩
  cases hp : (X.parse_command (token0 :: rest) cmd ctx).1
  · rw [execute_command_parse_failure X s cmd_line common_context token0 rest _ cmd ctx
      htokens rfl hne hcmd hctx hp] at h
    cases h
  · rfl

/-- The run of the script loop: it delivers every line and ends without a
fault, or it stops at the first line at which a fault arises, with the lines
behind it left unread. -/
theorem script_loop_run (X : Externals Cmd Ctx) (lines : List String)
    (s : Shell Cmd Ctx F) (common_context : T) :
    ((script_loop X lines s common_context).fault = none ∧
        dispatched (script_loop X lines s common_context).trace = delivered_lines lines) ∨
      ∃ pre line post fault, lines = pre ++ line :: post ∧
        (script_loop X pre s common_context).fault = none ∧
        (script_loop X lines s common_context).fault = some fault ∧
        ((front line = none ∧ fault = Fault.front_of_empty_string ∧
            dispatched (script_loop X lines s common_context).trace = delivered_lines pre) ∨
          (front line ≠ none ∧ front line ≠ some '#' ∧
            (execute_command X (script_loop X pre s common_context).shell
              (c_str (cmd_part_of line)) common_context).fault = some fault ∧
            dispatched (script_loop X lines s common_context).trace
              = delivered_lines pre ++ [c_str (cmd_part_of line)])) := by
  induction lines generalizing s with
  | nil => exact Or.inl ⟨rfl, rfl⟩
  | cons line rest ih =>
    cases hf : front line with
    | none =>
      refine Or.inr ⟨[], line, rest, Fault.front_of_empty_string, rfl, rfl, ?_, Or.inl ?_⟩
      · rw [script_loop_empty_line X line rest s common_context hf]
      · rw [script_loop_empty_line X line rest s common_context hf]
        exact ⟨hf, rfl, rfl⟩
    | some c =>
      by_cases hc : c = '#'
      · rw [hc] at hf
        rw [script_loop_comment X line rest s common_context hf]
        rcases ih s with ⟨h1, h2⟩ | ⟨pre, l, post, fault, hsplit, hpre, hfault, hend⟩
        · exact Or.inl ⟨h1, by rw [h2, delivered_lines_comment line rest hf]⟩
        · refine Or.inr ⟨line :: pre, l, post, fault, by rw [hsplit]; rfl, ?_, hfault, ?_⟩
          · rw [script_loop_comment X line pre s common_context hf]; exact hpre
          · rw [script_loop_comment X line pre s common_context hf,
              delivered_lines_comment line pre hf]
            exact hend
      · have hne : front line ≠ some '#' := by
          rw [hf]; intro h; injection h with h; exact hc h
        cases hfault : (execute_command X s (c_str (cmd_part_of line)) common_context).fault with
        | some fault =>
          rw [script_loop_fault X line rest s common_context c fault hf hc hfault]
          refine Or.inr ⟨[], line, rest, fault, rfl, rfl, rfl, Or.inr ⟨?_, hne, hfault, ?_⟩⟩
          · rw [hf]; intro h; cases h
          · simp [dispatched, dispatched_execute_command, delivered_lines]
        | none =>
          rw [script_loop_next X line rest s common_context c hf hc hfault]
          simp only [dispatched, dispatched_append, dispatched_execute_command,
            List.nil_append]
          rcases ih (execute_command X s (c_str (cmd_part_of line)) common_context).shell with
            ⟨h1, h2⟩ | ⟨pre, l, post, fault, hsplit, hpre, hfault2, hend⟩
          · exact Or.inl ⟨h1, by rw [h2, delivered_lines_command line rest hne]⟩
          · refine Or.inr ⟨line :: pre, l, post, fault, by rw [hsplit]; rfl, ?_, hfault2, ?_⟩
            · rw [script_loop_next X line pre s common_context c hf hc hfault]; exact hpre
            · rw [script_loop_next X line pre s common_context c hf hc hfault,
                delivered_lines_command line pre hne]
              rcases hend with ⟨e1, e2, e3⟩ | ⟨e1, e2, e3, e4⟩
              · exact Or.inl ⟨e1, e2, by rw [e3]⟩
              · exact Or.inr ⟨e1, e2, e3, by rw [e4]; rfl⟩

/-- C8 (as the code has it). For every script file that opens,
`run_script_mode` goes through the lines in file order. Either it meets no
fault, and then it has dispatched exactly one line for each line that does
not start with '#', namely the text of the line before its first '#' or NUL
byte, untrimmed, and none for a line that starts with '#'. Or it stops at the
first line at which a fault arises, an empty line or a line whose dispatch
does not return: the lines before it have been dispatched as said, the line
itself has been dispatched if the fault arose in its dispatch, and no line
behind it is dispatched. A dispatched line holds no '#', and a dispatch that
ends in an unknown command or in a parse failure is no fault. -/
theorem run_script_mode_dispatches (X : Externals Cmd Ctx) (s : Shell Cmd Ctx F)
    (script_file_name content : String) (common_context : T) :
    (((run_script_mode X s script_file_name (some content) common_context).fault = none ∧
        dispatched (run_script_mode X s script_file_name (some content) common_context).trace
          = delivered_lines (getlines content)) ∨
      ∃ pre line post fault, getlines content = pre ++ line :: post ∧
        (script_loop X pre s common_context).fault = none ∧
        (run_script_mode X s script_file_name (some content) common_context).fault
          = some fault ∧
        ((front line = none ∧ fault = Fault.front_of_empty_string ∧
            dispatched
              (run_script_mode X s script_file_name (some content) common_context).trace
              = delivered_lines pre) ∨
          (front line ≠ none ∧ front line ≠ some '#' ∧
            (execute_command X (script_loop X pre s common_context).shell
              (c_str (cmd_part_of line)) common_context).fault = some fault ∧
            dispatched
              (run_script_mode X s script_file_name (some content) common_context).trace
              = delivered_lines pre ++ [c_str (cmd_part_of line)]))) ∧
      (∀ l ∈ dispatched
          (run_script_mode X s script_file_name (some content) common_context).trace,
        '#' ∉ l.data) ∧
      (∀ (s1 : Shell Cmd Ctx F) (cmd_line : String) (fault : Fault),
        (execute_command X s1 cmd_line common_context).fault = some fault →
        ∀ token0 rest, X.split cmd_line = token0 :: rest →
          command s1 token0 ≠ ShellCommandId.INVALID ∧
          ∀ cmd ctx, s1.commands_[(command s1 token0).toSize]? = some cmd →
            s1.command_contexts_[(command s1 token0).toSize]? = some ctx →
            (X.parse_command (token0 :: rest) cmd ctx).1 = true) := by
  have hd : dispatched
      (run_script_mode X s script_file_name (some content) common_context).trace
      = dispatched (script_loop X (getlines content) s common_context).trace := by
    simp only [run_script_mode, dispatched_append, dispatched_script_banner, List.nil_append]
  have hfault : (run_script_mode X s script_file_name (some content) common_context).fault
      = (script_loop X (getlines content) s common_context).fault := rfl
  have hrun := script_loop_run X (getlines content) s common_context
  rw [hd, hfault]
  refine ⟨hrun, fun l hl => ?_, fun s1 cmd_line fault h =>
    execute_command_fault_resolved X s1 cmd_line common_context fault h⟩
  rcases hrun with ⟨_, h2⟩ | ⟨pre, line, post, fault, _, _, _, hend⟩
  · rw [h2] at hl
    exact not_mem_delivered_lines _ l hl
  · rcases hend with ⟨_, _, e3⟩ | ⟨_, _, _, e4⟩
    · rw [e3] at hl
      exact not_mem_delivered_lines _ l hl
    · rw [e4] at hl
      rcases List.mem_append.mp hl with hl | hl
      · exact not_mem_delivered_lines _ l hl
      · rw [List.mem_singleton.mp hl]
        exact not_mem_c_str_cmd_part_of line

/-- C8 (as the code has it), at the script of the spec: in a new shell the
content "# full comment\ncmdA --x 1\ncmdB   # trailing" meets no fault (both
commands are unknown, and the run goes on after each) and dispatches exactly
the two lines "cmdA --x 1" and "cmdB   ". -/
theorem run_script_mode_dispatches_witness :
    dispatched (run_script_mode demo (Shell.new "shell" : Shell String (List String) Nat)
        "flow.openfpga" (some "# full comment\ncmdA --x 1\ncmdB   # trailing")
        (42 : Nat)).trace
      = ["cmdA --x 1", "cmdB   "] := by
  have h0 : (run_script_mode demo (Shell.new "shell" : Shell String (List String) Nat)
      "flow.openfpga" (some "# full comment\ncmdA --x 1\ncmdB   # trailing")
      (42 : Nat)).fault = none := by decide
  rcases (run_script_mode_dispatches demo (Shell.new "shell" : Shell String (List String) Nat)
      "flow.openfpga" "# full comment\ncmdA --x 1\ncmdB   # trailing" (42 : Nat)).1 with
    ⟨_, h⟩ | ⟨_, _, _, _, _, _, hfault, _⟩
  · rw [h]; decide
  · rw [h0] at hfault; cases hfault

/-- C8 (the claim as stated fails), in a new shell. The one line of the file
"cmdA\x00 --x 1" holds no '#', so its effective line is the whole line; what
is dispatched is "cmdA", the line cut at its NUL byte. And of the file
"\ncmdB", whose second line does not start with '#', no line is dispatched:
the run ends at the empty first line. -/
theorem run_script_mode_counterexample :
    effective_lines (getlines "cmdA\x00 --x 1") = ["cmdA\x00 --x 1"] ∧
      dispatched (run_script_mode demo (Shell.new "shell" : Shell String (List String) Nat)
        "flow.openfpga" (some "cmdA\x00 --x 1") (42 : Nat)).trace = ["cmdA"] ∧
      effective_lines (getlines "\ncmdB") = ["", "cmdB"] ∧
      dispatched (run_script_mode demo (Shell.new "shell" : Shell String (List String) Nat)
        "flow.openfpga" (some "\ncmdB") (42 : Nat)).trace = [] := by
  decide

/-- C10 (the code at the failing input). The file "cmdA\n\ncmdB" has an empty
second line. `run_script_mode` dispatches "cmdA" and then evaluates
`line.front()` on the empty line: the run ends there with that fault, before
"cmdB" is read. -/
theorem run_script_mode_front_of_empty_line :
    getlines "cmdA\n\ncmdB" = ["cmdA", "", "cmdB"] ∧
      dispatched (run_script_mode demo (Shell.new "shell" : Shell String (List String) Nat)
        "flow.openfpga" (some "cmdA\n\ncmdB") (42 : Nat)).trace = ["cmdA"] ∧
      (run_script_mode demo (Shell.new "shell" : Shell String (List String) Nat)
        "flow.openfpga" (some "cmdA\n\ncmdB") (42 : Nat)).fault
        = some Fault.front_of_empty_string := by
  decide

end Script

/-! ## Dependencies and the accessors keyed by an id -/

section Dependencies

variable {Cmd Ctx F : Type}

theorem valid_command_id_lt (s : Shell Cmd Ctx F) (cmd_id : ShellCommandId)
    (h : valid_command_id s cmd_id = true) : cmd_id.toSize < s.command_ids_.length := by
  unfold valid_command_id at h
  simp only [Bool.and_eq_true, decide_eq_true_eq] at h
  exact h.1

theorem at_id_of_lt {α : Type} (container : List α) (cmd_id : ShellCommandId)
    (h : cmd_id.toSize < container.length) :
    at_id container cmd_id = Except.ok (container.get ⟨cmd_id.toSize, h⟩) := by
  unfold at_id
  rw [List.getElem?_eq_getElem h]
  rfl

theorem toSize_ne_of_valid (s : Shell Cmd Ctx F) (hs : WellFormed s) (a b : ShellCommandId)
    (ha : valid_command_id s a = true) (hb : valid_command_id s b = true) (hab : a ≠ b) :
    a.toSize ≠ b.toSize := by
  cases a with
  | INVALID => rw [valid_command_id_INVALID s hs] at ha; cases ha
  | mk i =>
    cases b with
    | INVALID => rw [valid_command_id_INVALID s hs] at hb; cases hb
    | mk j =>
      intro h
      apply hab
      simp only [ShellCommandId.toSize] at h
      rw [h]

theorem valid_command_id_of_ids (s s1 : Shell Cmd Ctx F)
    (h : s1.command_ids_ = s.command_ids_) (cmd_id : ShellCommandId) :
    valid_command_id s1 cmd_id = valid_command_id s cmd_id := by
  unfold valid_command_id
  rw [h]

/-- C11. `add_command_dependency(id, deps)` ends in a failed assertion whenever
`id` is not a valid id or some element of `deps` is not a valid id; the call
then yields no shell, so no dependency list is stored or changed. -/
theorem add_command_dependency_rejects_invalid (s : Shell Cmd Ctx F) (cmd_id : ShellCommandId)
    (dependent_cmds : List ShellCommandId)
    (h : valid_command_id s cmd_id = false ∨
      ∃ dependent_cmd ∈ dependent_cmds, valid_command_id s dependent_cmd = false) :
    add_command_dependency s cmd_id dependent_cmds = Except.error Fault.assertion := by
  unfold add_command_dependency
  by_cases hv : valid_command_id s cmd_id = true
  · rcases h with h | ⟨d, hd, hdv⟩
    · rw [h] at hv; cases hv
    · have hall : dependent_cmds.all (fun dependent_cmd => valid_command_id s dependent_cmd)
          ≠ true := by
        intro hall
        have := List.all_eq_true.mp hall d hd
        simp only at this
        rw [hdv] at this
        cases this
      rw [if_pos hv, if_neg hall]
  · rw [if_neg hv]

/-- C11, in the shell `demo_unbound`, which holds one command: a dependency
on the id of index 5, a dependency on `INVALID`, and a declaration for the id
of index 1 all end in a failed assertion. -/
theorem add_command_dependency_rejects_invalid_witness :
    add_command_dependency demo_unbound (ShellCommandId.mk 0) [ShellCommandId.mk 5]
        = Except.error Fault.assertion ∧
      add_command_dependency demo_unbound (ShellCommandId.mk 0) [ShellCommandId.INVALID]
        = Except.error Fault.assertion ∧
      add_command_dependency demo_unbound (ShellCommandId.mk 1) []
        = Except.error Fault.assertion :=
  ⟨add_command_dependency_rejects_invalid demo_unbound _ _
      (Or.inr ⟨ShellCommandId.mk 5, by decide, by decide⟩),
    add_command_dependency_rejects_invalid demo_unbound _ _
      (Or.inr ⟨ShellCommandId.INVALID, by decide, by decide⟩),
    add_command_dependency_rejects_invalid demo_unbound _ _ (Or.inl (by decide))⟩

/-- C12. In a shell of well-formed registry, for a valid id and a list of
valid ids (which may hold the id itself, hold an id twice, or close a cycle),
`add_command_dependency` returns; in the shell it leaves,
`command_dependency(id)` is the list as given, the dependency list of every
other id is what it was, and nothing but the dependency lists has changed. -/
theorem add_command_dependency_stores (s : Shell Cmd Ctx F) (cmd_id : ShellCommandId)
    (dependent_cmds : List ShellCommandId) (hs : WellFormed s)
    (hid : valid_command_id s cmd_id = true)
    (hdeps : ∀ dependent_cmd ∈ dependent_cmds, valid_command_id s dependent_cmd = true) :
    ∃ s1 : Shell Cmd Ctx F,
      add_command_dependency s cmd_id dependent_cmds = Except.ok s1 ∧
      command_dependency s1 cmd_id = Except.ok dependent_cmds ∧
      (∀ other, other ≠ cmd_id → command_dependency s1 other = command_dependency s other) ∧
      s1.command_ids_ = s.command_ids_ ∧ s1.commands_ = s.commands_ ∧
      s1.command_contexts_ = s.command_contexts_ ∧
      s1.command_description_ = s.command_description_ ∧
      s1.command_execute_functions_ = s.command_execute_functions_ ∧
      s1.command_name2ids_ = s.command_name2ids_ := by
  have hlt : cmd_id.toSize < s.command_dependencies_.length := by
    rw [hs.dependencies_length]
    exact valid_command_id_lt s cmd_id hid
  have hall : dependent_cmds.all (fun dependent_cmd => valid_command_id s dependent_cmd)
      = true := List.all_eq_true.mpr (fun d hd => hdeps d hd)
  have hvv : ∀ x : ShellCommandId,
      valid_command_id
        ({ s with
          command_dependencies_ := s.command_dependencies_.set cmd_id.toSize dependent_cmds } :
          Shell Cmd Ctx F) x = valid_command_id s x := fun _ => rfl
  refine ⟨{ s with
    command_dependencies_ := s.command_dependencies_.set cmd_id.toSize dependent_cmds },
    ?_, ?_, ?_, rfl, rfl, rfl, rfl, rfl, rfl⟩
  · simp only [add_command_dependency, hid, hall, assign_at, hlt, if_true]
  · simp only [command_dependency]
    rw [hvv, if_pos hid]
    simp [at_id, List.getElem?_set, hlt]
  · intro other hne
    by_cases hov : valid_command_id s other = true
    · have hidx := toSize_ne_of_valid s hs cmd_id other hid hov (Ne.symm hne)
      simp only [command_dependency]
      rw [hvv, if_pos hov, if_pos hov]
      simp only [at_id]
      rw [List.getElem?_set_ne hidx]
    · simp only [command_dependency]
      rw [hvv, if_neg hov, if_neg hov]

/-- C12, in the shell `demo_unbound`: the only command is made to depend on
itself, twice, and the list is stored as given. -/
theorem add_command_dependency_stores_witness :
    ∃ s1 : Shell String (List String) Nat,
      add_command_dependency demo_unbound (ShellCommandId.mk 0)
        [ShellCommandId.mk 0, ShellCommandId.mk 0] = Except.ok s1 ∧
      command_dependency s1 (ShellCommandId.mk 0)
        = Except.ok [ShellCommandId.mk 0, ShellCommandId.mk 0] := by
  obtain ⟨s1, h1, h2, _⟩ := add_command_dependency_stores demo_unbound (ShellCommandId.mk 0)
    [ShellCommandId.mk 0, ShellCommandId.mk 0] wellFormed_demo_unbound (by decide) (by decide)
  exact ⟨s1, h1, h2⟩

/-- C17. In a shell of well-formed registry, each of `command_description`,
`command(id)`, `command_context`, `command_dependency` and
`add_command_execute_function` ends in a failed assertion exactly when
`valid_command_id` is false of the id; for a valid id each accessor returns
the element at the index of the id, which is inside the container, and
`add_command_execute_function` stores the binding at that index. -/
theorem accessors_assert_valid_id (s : Shell Cmd Ctx F) (cmd_id : ShellCommandId)
    (exec_func : Option F) (hs : WellFormed s) :
    ((command_description s cmd_id = Except.error Fault.assertion
        ↔ valid_command_id s cmd_id = false) ∧
      (command_by_id s cmd_id = Except.error Fault.assertion
        ↔ valid_command_id s cmd_id = false) ∧
      (command_context s cmd_id = Except.error Fault.assertion
        ↔ valid_command_id s cmd_id = false) ∧
      (command_dependency s cmd_id = Except.error Fault.assertion
        ↔ valid_command_id s cmd_id = false) ∧
      (add_command_execute_function s cmd_id exec_func = Except.error Fault.assertion
        ↔ valid_command_id s cmd_id = false)) ∧
    (valid_command_id s cmd_id = true →
      (∃ descr, s.command_description_[cmd_id.toSize]? = some descr ∧
        command_description s cmd_id = Except.ok descr) ∧
      (∃ cmd, s.commands_[cmd_id.toSize]? = some cmd ∧
        command_by_id s cmd_id = Except.ok cmd) ∧
      (∃ ctx, s.command_contexts_[cmd_id.toSize]? = some ctx ∧
        command_context s cmd_id = Except.ok ctx) ∧
      (∃ deps, s.command_dependencies_[cmd_id.toSize]? = some deps ∧
        command_dependency s cmd_id = Except.ok deps) ∧
      add_command_execute_function s cmd_id exec_func
        = Except.ok { s with command_execute_functions_ :=
            s.command_execute_functions_.set cmd_id.toSize exec_func }) := by
  by_cases hv : valid_command_id s cmd_id = true
  · have hn := valid_command_id_lt s cmd_id hv
    have h1 : cmd_id.toSize < s.command_description_.length := by
      rw [hs.description_length]; exact hn
    have h2 : cmd_id.toSize < s.commands_.length := by
      rw [hs.commands_length]; exact hn
    have h3 : cmd_id.toSize < s.command_contexts_.length := by
      rw [hs.contexts_length]; exact hn
    have h4 : cmd_id.toSize < s.command_dependencies_.length := by
      rw [hs.dependencies_length]; exact hn
    have h5 : cmd_id.toSize < s.command_execute_functions_.length := by
      rw [hs.functions_length]; exact hn
    have e1 : command_description s cmd_id
        = Except.ok (s.command_description_.get ⟨cmd_id.toSize, h1⟩) := by
      simp only [command_description, hv, if_true, at_id_of_lt _ _ h1]
    have e2 : command_by_id s cmd_id = Except.ok (s.commands_.get ⟨cmd_id.toSize, h2⟩) := by
      simp only [command_by_id, hv, if_true, at_id_of_lt _ _ h2]
    have e3 : command_context s cmd_id
        = Except.ok (s.command_contexts_.get ⟨cmd_id.toSize, h3⟩) := by
      simp only [command_context, hv, if_true, at_id_of_lt _ _ h3]
    have e4 : command_dependency s cmd_id
        = Except.ok (s.command_dependencies_.get ⟨cmd_id.toSize, h4⟩) := by
      simp only [command_dependency, hv, if_true, at_id_of_lt _ _ h4]
    have e5 : add_command_execute_function s cmd_id exec_func
        = Except.ok { s with command_execute_functions_ :=
            s.command_execute_functions_.set cmd_id.toSize exec_func } := by
      simp only [add_command_execute_function, hv, if_true, assign_at, h5]
    refine ⟨⟨?_, ?_, ?_, ?_, ?_⟩, fun _ => ⟨⟨_, ?_, e1⟩, ⟨_, ?_, e2⟩, ⟨_, ?_, e3⟩, ⟨_, ?_, e4⟩, e5⟩⟩
    · rw [e1, hv]; constructor <;> intro h <;> cases h
    · rw [e2, hv]; constructor <;> intro h <;> cases h
    · rw [e3, hv]; constructor <;> intro h <;> cases h
    · rw [e4, hv]; constructor <;> intro h <;> cases h
    · rw [e5, hv]; constructor <;> intro h <;> cases h
    · exact List.getElem?_eq_getElem h1
    · exact List.getElem?_eq_getElem h2
    · exact List.getElem?_eq_getElem h3
    · exact List.getElem?_eq_getElem h4
  · have hf : valid_command_id s cmd_id = false := by
      cases hb : valid_command_id s cmd_id
      · rfl
      · exact absurd hb hv
    refine ⟨⟨?_, ?_, ?_, ?_, ?_⟩, fun h => absurd h hv⟩
    · rw [command_description, if_neg hv]; exact ⟨fun _ => hf, fun _ => rfl⟩
    · rw [command_by_id, if_neg hv]; exact ⟨fun _ => hf, fun _ => rfl⟩
    · rw [command_context, if_neg hv]; exact ⟨fun _ => hf, fun _ => rfl⟩
    · rw [command_dependency, if_neg hv]; exact ⟨fun _ => hf, fun _ => rfl⟩
    · rw [add_command_execute_function, if_neg hv]; exact ⟨fun _ => hf, fun _ => rfl⟩

/-- C17, in the shell `demo_bound`: the id of index 0 is valid and its
description is returned; the id of index 1 is not, and the accessor ends in a
failed assertion. -/
theorem accessors_assert_valid_id_witness :
    command_description demo_bound (ShellCommandId.mk 0) = Except.ok "run a flow" ∧
      command_description demo_bound (ShellCommandId.mk 1) = Except.error Fault.assertion :=
  ⟨by
      obtain ⟨descr, h1, h2⟩ :=
        ((accessors_assert_valid_id demo_bound (ShellCommandId.mk 0) (none : Option Nat)
          wellFormed_demo_bound).2 (by decide)).1
      rw [h2]
      have h3 : demo_bound.command_description_[(ShellCommandId.mk 0).toSize]?
          = some "run a flow" := by decide
      rw [h3] at h1
      injection h1 with h1
      rw [h1],
    (accessors_assert_valid_id demo_bound (ShellCommandId.mk 1) (none : Option Nat)
      wellFormed_demo_bound).1.1.mpr (by decide)⟩

end Dependencies

/-! ## What the dispatcher reads and writes -/

section Frame

variable {Cmd Ctx T F : Type}

/-- The dispatcher leaves the shell as it was, or with one context replaced:
that at the index of the id which the first token resolves to. -/
theorem execute_command_frame (X : Externals Cmd Ctx) (s : Shell Cmd Ctx F)
    (cmd_line : String) (common_context : T) :
    (execute_command X s cmd_line common_context).shell = s ∨
      ∃ token0 ctx1, (X.split cmd_line)[0]? = some token0 ∧
        (execute_command X s cmd_line common_context).shell
          = { s with command_contexts_ :=
                s.command_contexts_.set (command s token0).toSize ctx1 } := by
  unfold execute_command
  simp only
  split
  · exact Or.inl rfl
  · rename_i token0 htok
    split
    · exact Or.inl rfl
    · split
      · split
        · exact Or.inr ⟨token0, _, htok, rfl⟩
        · split
          · exact Or.inr ⟨token0, _, htok, rfl⟩
          · exact Or.inr ⟨token0, _, htok, rfl⟩
      · exact Or.inl rfl

/-- The containers that the dispatcher hands on untouched. -/
theorem execute_command_keeps_registry (X : Externals Cmd Ctx) (s : Shell Cmd Ctx F)
    (cmd_line : String) (common_context : T) :
    (execute_command X s cmd_line common_context).shell.name_ = s.name_ ∧
      (execute_command X s cmd_line common_context).shell.title_ = s.title_ ∧
      (execute_command X s cmd_line common_context).shell.command_ids_ = s.command_ids_ ∧
      (execute_command X s cmd_line common_context).shell.commands_ = s.commands_ ∧
      (execute_command X s cmd_line common_context).shell.command_description_
        = s.command_description_ ∧
      (execute_command X s cmd_line common_context).shell.command_execute_functions_
        = s.command_execute_functions_ ∧
      (execute_command X s cmd_line common_context).shell.command_dependencies_
        = s.command_dependencies_ ∧
      (execute_command X s cmd_line common_context).shell.command_name2ids_
        = s.command_name2ids_ := by
  rcases execute_command_frame X s cmd_line common_context with h | ⟨token0, ctx1, _, h⟩
  · rw [h]
    exact ⟨rfl, rfl, rfl, rfl, rfl, rfl, rfl, rfl⟩
  · rw [h]
    exact ⟨rfl, rfl, rfl, rfl, rfl, rfl, rfl, rfl⟩

/-- C19. `execute_command` writes nothing but the `CommandContext` at the
index of the id that the first token resolves to: after the call the name
and title of the shell, the ids, the commands, the descriptions, the execute
bindings, the dependency lists and the name map are what they were, there
are as many contexts as before, and the context at every other index is
what it was (all of them when the line has no token). -/
theorem execute_command_writes_one_context (X : Externals Cmd Ctx) (s : Shell Cmd Ctx F)
    (cmd_line : String) (common_context : T) :
    (execute_command X s cmd_line common_context).shell.name_ = s.name_ ∧
      (execute_command X s cmd_line common_context).shell.title_ = s.title_ ∧
      (execute_command X s cmd_line common_context).shell.command_ids_ = s.command_ids_ ∧
      (execute_command X s cmd_line common_context).shell.commands_ = s.commands_ ∧
      (execute_command X s cmd_line common_context).shell.command_description_
        = s.command_description_ ∧
      (execute_command X s cmd_line common_context).shell.command_execute_functions_
        = s.command_execute_functions_ ∧
      (execute_command X s cmd_line common_context).shell.command_dependencies_
        = s.command_dependencies_ ∧
      (execute_command X s cmd_line common_context).shell.command_name2ids_
        = s.command_name2ids_ ∧
      (execute_command X s cmd_line common_context).shell.command_contexts_.length
        = s.command_contexts_.length ∧
      ∀ i, (∀ token0, (X.split cmd_line)[0]? = some token0 → i ≠ (command s token0).toSize) →
        (execute_command X s cmd_line common_context).shell.command_contexts_[i]?
          = s.command_contexts_[i]? := by
  rcases execute_command_frame X s cmd_line common_context with h | ⟨token0, ctx1, htok, h⟩
  · rw [h]
    exact ⟨rfl, rfl, rfl, rfl, rfl, rfl, rfl, rfl, rfl, fun _ _ => rfl⟩
  · rw [h]
    refine ⟨rfl, rfl, rfl, rfl, rfl, rfl, rfl, rfl, ?_, fun i hi => ?_⟩
    · simp
    · have hne := hi token0 htok
      simp only
      rw [List.getElem?_set_ne (Ne.symm hne)]

/-- C14. The dispatcher does not read the dependency lists: replace the
dependency lists of a shell by any others, and `execute_command` has the same
effects in the same order (log lines, parser call, echo, application of the
binding with the same arguments), ends the same way, and leaves the same
shell but for the dependency lists, which it hands on as it found them. -/
theorem execute_command_ignores_dependencies (X : Externals Cmd Ctx) (s : Shell Cmd Ctx F)
    (dependencies : List (List ShellCommandId)) (cmd_line : String) (common_context : T) :
    (execute_command X { s with command_dependencies_ := dependencies } cmd_line
        common_context).trace = (execute_command X s cmd_line common_context).trace ∧
      (execute_command X { s with command_dependencies_ := dependencies } cmd_line
        common_context).fault = (execute_command X s cmd_line common_context).fault ∧
      (execute_command X { s with command_dependencies_ := dependencies } cmd_line
        common_context).shell
        = { (execute_command X s cmd_line common_context).shell with
            command_dependencies_ := dependencies } := by
  unfold execute_command command
  simp only
  split
  · exact ⟨rfl, rfl, rfl⟩
  · split
    · exact ⟨rfl, rfl, rfl⟩
    · split
      · split
        · exact ⟨rfl, rfl, rfl⟩
        · split
          · exact ⟨rfl, rfl, rfl⟩
          · exact ⟨rfl, rfl, rfl⟩
      · exact ⟨rfl, rfl, rfl⟩

/-- C14, in the shell `demo_bound` once its command has been declared to
depend on itself: the command has never run, and the line "run" still has its
callback applied. -/
theorem execute_command_ignores_dependencies_witness :
    invocations (execute_command demo
        { demo_bound with command_dependencies_ := [[ShellCommandId.mk 0]] } "run"
        (42 : Nat)).trace = [(some 7, 42, ["run"])] := by
  rw [(execute_command_ignores_dependencies demo demo_bound [[ShellCommandId.mk 0]] "run"
    (42 : Nat)).1]
  decide

end Frame

/-! ## The runners -/

section Runners

variable {Cmd Ctx T F : Type}

theorem invocations_append (a b : List (Event Cmd Ctx T F)) :
    invocations (a ++ b) = invocations a ++ invocations b := by
  induction a with
  | nil => rfl
  | cons e es ih => cases e <;> simp [invocations, ih]

theorem invocations_script_banner (s : Shell Cmd Ctx F) (script_file_name : String) :
    invocations (script_banner s script_file_name : List (Event Cmd Ctx T F)) = [] := by
  unfold script_banner
  split <;> rfl

/-- C16. When the script file cannot be opened, `run_script_mode` logs the
opening lines and the failure, and returns: the last line of log names the
file that could not be opened, `execute_command` is not called, no binding is
applied, and the shell is what it was. -/
theorem run_script_mode_unopened_file (X : Externals Cmd Ctx) (s : Shell Cmd Ctx F)
    (script_file_name : String) (common_context : T) :
    (run_script_mode X s script_file_name none common_context).shell = s ∧
      (run_script_mode X s script_file_name none common_context).fault = none ∧
      (run_script_mode X s script_file_name none common_context).trace
        = script_banner s script_file_name ++
          [Event.log ("Fail to open the script file: " ++ script_file_name ++
            "! Please check its location\n")] ∧
      dispatched (run_script_mode X s script_file_name none common_context).trace = [] ∧
      invocations (run_script_mode X s script_file_name none common_context).trace = [] ∧
      parser_calls (run_script_mode X s script_file_name none common_context).trace = 0 := by
  refine ⟨rfl, rfl, rfl, ?_, ?_, ?_⟩
  · simp only [run_script_mode, dispatched_append, dispatched_script_banner]
    rfl
  · simp only [run_script_mode, invocations_append, invocations_script_banner]
    rfl
  · simp only [run_script_mode, script_banner]
    split <;> rfl

theorem runner_calls_append (a b : List (Event Cmd Ctx T F)) :
    runner_calls (a ++ b) = runner_calls a ++ runner_calls b := by
  induction a with
  | nil => rfl
  | cons e es ih => cases e <;> simp [runner_calls, ih]

/-- The dispatcher neither calls itself nor touches the history. -/
theorem runner_calls_execute_command (X : Externals Cmd Ctx) (s : Shell Cmd Ctx F)
    (cmd_line : String) (common_context : T) :
    runner_calls (execute_command X s cmd_line common_context).trace = [] := by
  unfold execute_command
  simp only
  split
  · rfl
  · split
    · rfl
    · split
      · split
        · rfl
        · split <;> rfl
      · rfl

theorem runner_calls_interactive_banner (s : Shell Cmd Ctx F) :
    runner_calls (interactive_banner s : List (Event Cmd Ctx T F)) = [] := by
  unfold interactive_banner
  split <;> rfl

/-- The loop of the interactive runner at a line of length zero. -/
theorem interactive_loop_skip (X : Externals Cmd Ctx) (cmd_line : String) (rest : List String)
    (s : Shell Cmd Ctx F) (common_context : T) (hlen : ¬ 0 < strlen cmd_line) :
    interactive_loop X (cmd_line :: rest) s common_context
      = interactive_loop X rest s common_context := by
  simp [interactive_loop, hlen]

/-- The loop of the interactive runner at a line whose dispatch ends in a
fault: the loop ends with it, the line is not added to the history and no
further line is read. -/
theorem interactive_loop_fault (X : Externals Cmd Ctx) (cmd_line : String)
    (rest : List String) (s : Shell Cmd Ctx F) (common_context : T) (fault : Fault)
    (hlen : 0 < strlen cmd_line)
    (hfault : (execute_command X s (c_str cmd_line) common_context).fault = some fault) :
    interactive_loop X (cmd_line :: rest) s common_context
      = ⟨(execute_command X s (c_str cmd_line) common_context).shell,
          Event.execute_command (c_str cmd_line) ::
            (execute_command X s (c_str cmd_line) common_context).trace,
          some fault⟩ := by
  simp [interactive_loop, hlen, hfault]

/-- The loop of the interactive runner at a line whose dispatch returns: the
line is added to the history and the loop goes on. -/
theorem interactive_loop_next (X : Externals Cmd Ctx) (cmd_line : String)
    (rest : List String) (s : Shell Cmd Ctx F) (common_context : T)
    (hlen : 0 < strlen cmd_line)
    (hfault : (execute_command X s (c_str cmd_line) common_context).fault = none) :
    interactive_loop X (cmd_line :: rest) s common_context
      = ⟨(interactive_loop X rest
            (execute_command X s (c_str cmd_line) common_context).shell common_context).shell,
          Event.execute_command (c_str cmd_line) ::
            ((execute_command X s (c_str cmd_line) common_context).trace ++
              Event.add_history (c_str cmd_line) ::
                (interactive_loop X rest
                  (execute_command X s (c_str cmd_line) common_context).shell
                  common_context).trace),
          (interactive_loop X rest
            (execute_command X s (c_str cmd_line) common_context).shell
            common_context).fault⟩ := by
  simp [interactive_loop, hlen, hfault]

theorem interactive_calls_skip (cmd_line : String) (rest : List String)
    (hlen : ¬ 0 < strlen cmd_line) :
    interactive_calls (cmd_line :: rest) = interactive_calls rest := by
  simp [interactive_calls, hlen]

theorem interactive_calls_line (cmd_line : String) (rest : List String)
    (hlen : 0 < strlen cmd_line) :
    interactive_calls (cmd_line :: rest)
      = RunnerCall.dispatch (c_str cmd_line) :: RunnerCall.history (c_str cmd_line) ::
          interactive_calls rest := by
  simp [interactive_calls, hlen]

/-- The run of the interactive loop: it goes through the whole input without
a fault, dispatching and then recording each line of positive length, or it
stops at the first line whose dispatch ends in a fault, with that line
dispatched and not recorded and the lines behind it left unread. -/
theorem interactive_loop_run (X : Externals Cmd Ctx) (input : List String)
    (s : Shell Cmd Ctx F) (common_context : T) :
    ((interactive_loop X input s common_context).fault = none ∧
        runner_calls (interactive_loop X input s common_context).trace
          = interactive_calls input) ∨
      ∃ pre cmd_line post fault, input = pre ++ cmd_line :: post ∧
        0 < strlen cmd_line ∧
        (interactive_loop X pre s common_context).fault = none ∧
        (execute_command X (interactive_loop X pre s common_context).shell (c_str cmd_line)
          common_context).fault = some fault ∧
        (interactive_loop X input s common_context).fault = some fault ∧
        runner_calls (interactive_loop X input s common_context).trace
          = interactive_calls pre ++ [RunnerCall.dispatch (c_str cmd_line)] := by
  induction input generalizing s with
  | nil => exact Or.inl ⟨rfl, rfl⟩
  | cons cmd_line rest ih =>
    by_cases hlen : 0 < strlen cmd_line
    · cases hfault : (execute_command X s (c_str cmd_line) common_context).fault with
      | some fault =>
        rw [interactive_loop_fault X cmd_line rest s common_context fault hlen hfault]
        refine Or.inr ⟨[], cmd_line, rest, fault, rfl, hlen, rfl, hfault, rfl, ?_⟩
        simp [runner_calls, runner_calls_execute_command, interactive_calls]
      | none =>
        rw [interactive_loop_next X cmd_line rest s common_context hlen hfault]
        simp only [runner_calls, runner_calls_append, runner_calls_execute_command,
          List.nil_append]
        rcases ih (execute_command X s (c_str cmd_line) common_context).shell with
          ⟨h1, h2⟩ | ⟨pre, l, post, fault, hsplit, hl, hpre, hexec, hfault2, hcalls⟩
        · exact Or.inl ⟨h1, by rw [h2, interactive_calls_line cmd_line rest hlen]⟩
        · refine Or.inr ⟨cmd_line :: pre, l, post, fault, by rw [hsplit]; rfl, hl, ?_, ?_,
            hfault2, ?_⟩
          · rw [interactive_loop_next X cmd_line pre s common_context hlen hfault]
            exact hpre
          · rw [interactive_loop_next X cmd_line pre s common_context hlen hfault]
            exact hexec
          · rw [hcalls, interactive_calls_line cmd_line pre hlen]
            rfl
    · rw [interactive_loop_skip X cmd_line rest s common_context hlen]
      rcases ih s with ⟨h1, h2⟩ | ⟨pre, l, post, fault, hsplit, hl, hpre, hexec, hfault2, hcalls⟩
      · exact Or.inl ⟨h1, by rw [h2, interactive_calls_skip cmd_line rest hlen]⟩
      · refine Or.inr ⟨cmd_line :: pre, l, post, fault, by rw [hsplit]; rfl, hl, ?_, ?_,
          hfault2, ?_⟩
        · rw [interactive_loop_skip X cmd_line pre s common_context hlen]
          exact hpre
        · rw [interactive_loop_skip X cmd_line pre s common_context hlen]
          exact hexec
        · rw [hcalls, interactive_calls_skip cmd_line pre hlen]

/-- C13 (as the code has it). `run_interactive_mode` tests the length of a
line and nothing else; the line is not trimmed. Either the session meets no
fault, and then, in the order of the input, each line of positive length has
been handed to `execute_command` and, right after that dispatch, added to
the history, and nothing else has been dispatched or recorded: a line of
length zero is passed over, and the loop has stopped only with the input. Or
the session stops at the first line whose dispatch ends in a fault: the
lines before it have been dispatched and recorded as said, that line has been
dispatched and is not recorded, and no further line is read. -/
theorem run_interactive_mode_calls (X : Externals Cmd Ctx) (s : Shell Cmd Ctx F)
    (input : List String) (common_context : T) :
    ((run_interactive_mode X s input common_context).fault = none ∧
        runner_calls (run_interactive_mode X s input common_context).trace
          = interactive_calls input) ∨
      ∃ pre cmd_line post fault, input = pre ++ cmd_line :: post ∧
        0 < strlen cmd_line ∧
        (interactive_loop X pre s common_context).fault = none ∧
        (execute_command X (interactive_loop X pre s common_context).shell (c_str cmd_line)
          common_context).fault = some fault ∧
        (run_interactive_mode X s input common_context).fault = some fault ∧
        runner_calls (run_interactive_mode X s input common_context).trace
          = interactive_calls pre ++ [RunnerCall.dispatch (c_str cmd_line)] := by
  have hd : runner_calls (run_interactive_mode X s input common_context).trace
      = runner_calls (interactive_loop X input s common_context).trace := by
    simp only [run_interactive_mode, runner_calls_append, runner_calls_interactive_banner,
      List.nil_append]
  have hfault : (run_interactive_mode X s input common_context).fault
      = (interactive_loop X input s common_context).fault := rfl
  rw [hd, hfault]
  exact interactive_loop_run X input s common_context

/-- C13 (as the code has it), in a new shell: of the lines "help", "" and
"exit now" the first and the last are dispatched and recorded, each recorded
right after its dispatch, and the empty one is passed over. -/
theorem run_interactive_mode_calls_witness :
    runner_calls (run_interactive_mode demo (Shell.new "shell" : Shell String (List String) Nat)
        ["help", "", "exit now"] (42 : Nat)).trace
      = [RunnerCall.dispatch "help", RunnerCall.history "help",
          RunnerCall.dispatch "exit now", RunnerCall.history "exit now"] := by
  have h0 : (run_interactive_mode demo (Shell.new "shell" : Shell String (List String) Nat)
      ["help", "", "exit now"] (42 : Nat)).fault = none := by decide
  rcases run_interactive_mode_calls demo (Shell.new "shell" : Shell String (List String) Nat)
      ["help", "", "exit now"] (42 : Nat) with
    ⟨_, h⟩ | ⟨_, _, _, _, _, _, _, _, hfault, _⟩
  · rw [h]; decide
  · rw [h0] at hfault; cases hfault

/-- C13 (the claim as stated fails). A line of three spaces is empty after
trimming, yet its length is 3 and `run_interactive_mode` hands it to
`execute_command`. -/
theorem run_interactive_mode_counterexample :
    strlen "   " = 3 ∧
      dispatched (run_interactive_mode demo
        (Shell.new "shell" : Shell String (List String) Nat) ["   "] (42 : Nat)).trace
        = ["   "] := by
  decide

/-- C18 (the code at the failing input). The second line of the file
"cmdA\n   # note" is three spaces and a comment. `run_script_mode` cuts the
comment off and hands the three spaces to `execute_command`; the tokenizer
finds no token in them, and the call ends on `tokens[0]`, outside the bounds
of the empty token list. -/
theorem run_script_mode_dispatches_blank_line :
    split_spaces "   " = [] ∧
      dispatched (run_script_mode demo (Shell.new "shell" : Shell String (List String) Nat)
        "flow.openfpga" (some "cmdA\n   # note") (42 : Nat)).trace = ["cmdA", "   "] ∧
      (execute_command demo (Shell.new "shell" : Shell String (List String) Nat) "   "
        (42 : Nat)).fault = some Fault.index_out_of_bounds ∧
      (run_script_mode demo (Shell.new "shell" : Shell String (List String) Nat)
        "flow.openfpga" (some "cmdA\n   # note") (42 : Nat)).fault
        = some Fault.index_out_of_bounds := by
  decide

end Runners

/-! ## Handles and the shape of the registry over time -/

section Stability

variable {Cmd Ctx T F : Type}

theorem add_command_execute_function_ok (s s1 : Shell Cmd Ctx F) (cmd_id : ShellCommandId)
    (exec_func : Option F)
    (h : add_command_execute_function s cmd_id exec_func = Except.ok s1) :
    s1 = { s with command_execute_functions_ :=
            s.command_execute_functions_.set cmd_id.toSize exec_func } := by
  unfold add_command_execute_function assign_at at h
  split at h
  · split at h
    · rename_i fs hfs
      split at hfs
      · injection hfs with hfs
        injection h with h
        rw [← h, ← hfs]
      · cases hfs
    · cases h
  · cases h

theorem add_command_dependency_ok (s s1 : Shell Cmd Ctx F) (cmd_id : ShellCommandId)
    (dependent_cmds : List ShellCommandId)
    (h : add_command_dependency s cmd_id dependent_cmds = Except.ok s1) :
    s1 = { s with command_dependencies_ :=
            s.command_dependencies_.set cmd_id.toSize dependent_cmds } ∧
      ∀ d ∈ dependent_cmds, valid_command_id s d = true := by
  unfold add_command_dependency assign_at at h
  split at h
  · split at h
    · rename_i hall
      split at h
      · rename_i ds hds
        split at hds
        · injection hds with hds
          injection h with h
          refine ⟨?_, fun d hd => ?_⟩
          · rw [← h, ← hds]
          · exact List.all_eq_true.mp hall d hd
        · cases hds
      · cases h
    · cases h
  · cases h

theorem wellFormed_execute_command (X : Externals Cmd Ctx) (s : Shell Cmd Ctx F)
    (cmd_line : String) (common_context : T) (hs : WellFormed s) :
    WellFormed (execute_command X s cmd_line common_context).shell := by
  rcases execute_command_frame X s cmd_line common_context with h | ⟨token0, ctx1, _, h⟩
  · rw [h]; exact hs
  · rw [h]
    constructor
    · exact hs.commands_length
    · simp [hs.contexts_length]
    · exact hs.description_length
    · exact hs.functions_length
    · exact hs.dependencies_length
    · exact hs.ids_dense

/-- What a registered command keeps while the shell evolves: the registry
stays well formed, no slot is given up, and the command and the description
at every index in use stay in place. -/
theorem evolves_keeps {X : Externals Cmd Ctx} {s s2 : Shell Cmd Ctx F}
    (hs : WellFormed s) (h : Evolves X T s s2) :
    WellFormed s2 ∧ ∀ i, i < s.command_ids_.length →
      i < s2.command_ids_.length ∧ s2.commands_[i]? = s.commands_[i]? ∧
        s2.command_description_[i]? = s.command_description_[i]? := by
  induction h with
  | refl => exact ⟨hs, fun i hi => ⟨hi, rfl, rfl⟩⟩
  | @add_command s1 cmd descr _ ih =>
    obtain ⟨hw, hk⟩ := ih
    refine ⟨wellFormed_add_command X s1 cmd descr hw, fun i hi => ?_⟩
    obtain ⟨h1, h2, h3⟩ := hk i hi
    cases hfree : s1.command_name2ids_ (X.cmd_name cmd) with
    | some id0 =>
      rw [add_command_rejected X s1 cmd descr id0 hfree]
      exact ⟨h1, h2, h3⟩
    | none =>
      rw [add_command_accepted X s1 cmd descr hfree]
      have hc : i < s1.commands_.length := by rw [hw.commands_length]; exact h1
      have hd : i < s1.command_description_.length := by rw [hw.description_length]; exact h1
      refine ⟨?_, ?_, ?_⟩
      · simp only [List.length_append, List.length_singleton]; omega
      · simp only [List.getElem?_append_left hc]; exact h2
      · simp only [List.getElem?_append_left hd]; exact h3
  | @add_command_execute_function s1 s3 cmd_id exec_func _ hstep ih =>
    obtain ⟨hw, hk⟩ := ih
    refine ⟨wellFormed_add_command_execute_function s1 s3 cmd_id exec_func hw hstep, ?_⟩
    rw [add_command_execute_function_ok s1 s3 cmd_id exec_func hstep]
    exact hk
  | @add_command_dependency s1 s3 cmd_id dependent_cmds _ hstep ih =>
    obtain ⟨hw, hk⟩ := ih
    refine ⟨wellFormed_add_command_dependency s1 s3 cmd_id dependent_cmds hw hstep, ?_⟩
    rw [(add_command_dependency_ok s1 s3 cmd_id dependent_cmds hstep).1]
    exact hk
  | @execute_command s1 cmd_line common_context _ _ ih =>
    obtain ⟨hw, hk⟩ := ih
    refine ⟨wellFormed_execute_command X s1 cmd_line common_context hw, fun i hi => ?_⟩
    obtain ⟨h1, h2, h3⟩ := hk i hi
    obtain ⟨_, _, e3, e4, e5, _⟩ :=
      execute_command_keeps_registry X s1 cmd_line common_context
    rw [e3, e4, e5]
    exact ⟨h1, h2, h3⟩

/-- C15. Let `add_command` return an id other than `INVALID` for a command
and a description, in a shell of well-formed registry. Through every further
sequence of `add_command`, `add_command_execute_function`,
`add_command_dependency` and `execute_command` calls the id stays valid,
`command(id)` stays the command and `command_description(id)` stays the
description. -/
theorem handle_stable (X : Externals Cmd Ctx) (s0 s2 : Shell Cmd Ctx F) (cmd : Cmd)
    (descr : String) (hs : WellFormed s0)
    (hid : (add_command X s0 cmd descr).2 ≠ ShellCommandId.INVALID)
    (h : Evolves X T (add_command X s0 cmd descr).1 s2) :
    valid_command_id s2 (add_command X s0 cmd descr).2 = true ∧
      command_by_id s2 (add_command X s0 cmd descr).2 = Except.ok cmd ∧
      command_description s2 (add_command X s0 cmd descr).2 = Except.ok descr := by
  have hfree : s0.command_name2ids_ (X.cmd_name cmd) = none := by
    cases hm : s0.command_name2ids_ (X.cmd_name cmd) with
    | none => rfl
    | some id0 =>
      rw [add_command_rejected X s0 cmd descr id0 hm] at hid
      exact absurd rfl hid
  have hw1 := wellFormed_add_command X s0 cmd descr hs
  obtain ⟨hw2, hk⟩ := evolves_keeps hw1 h
  have hidx : (add_command X s0 cmd descr).2 = ShellCommandId.mk s0.command_ids_.length := by
    rw [add_command_accepted X s0 cmd descr hfree]
  have hlen : s0.command_ids_.length < (add_command X s0 cmd descr).1.command_ids_.length := by
    rw [add_command_accepted X s0 cmd descr hfree]
    simp
  obtain ⟨h1, h2, h3⟩ := hk s0.command_ids_.length hlen
  have hc : (add_command X s0 cmd descr).1.commands_[s0.command_ids_.length]? = some cmd := by
    rw [add_command_accepted X s0 cmd descr hfree]
    simp only
    rw [← hs.commands_length]
    simp
  have hd : (add_command X s0 cmd descr).1.command_description_[s0.command_ids_.length]?
      = some descr := by
    rw [add_command_accepted X s0 cmd descr hfree]
    simp only
    rw [← hs.description_length]
    simp
  have hv : valid_command_id s2 (ShellCommandId.mk s0.command_ids_.length) = true := by
    rw [valid_command_id_mk s2 hw2]
    exact decide_eq_true h1
  rw [hidx]
  refine ⟨hv, ?_, ?_⟩
  · simp only [command_by_id, hv, if_true, at_id, ShellCommandId.toSize, h2, hc]
  · simp only [command_description, hv, if_true, at_id, ShellCommandId.toSize, h3, hd]

/-- C15, from a new shell: "help" is registered first; after the command
"exit" has been added and the line "help" dispatched, the id of index 0 is
still valid and still stands for "help" and its description. -/
theorem handle_stable_witness :
    valid_command_id
        (execute_command demo
          (add_command demo
            (add_command demo (Shell.new "shell" : Shell String (List String) Nat)
              "help" "show help").1 "exit" "leave").1 "help" (42 : Nat)).shell
        (ShellCommandId.mk 0) = true ∧
      command_by_id
        (execute_command demo
          (add_command demo
            (add_command demo (Shell.new "shell" : Shell String (List String) Nat)
              "help" "show help").1 "exit" "leave").1 "help" (42 : Nat)).shell
        (ShellCommandId.mk 0) = Except.ok "help" ∧
      command_description
        (execute_command demo
          (add_command demo
            (add_command demo (Shell.new "shell" : Shell String (List String) Nat)
              "help" "show help").1 "exit" "leave").1 "help" (42 : Nat)).shell
        (ShellCommandId.mk 0) = Except.ok "show help" :=
  handle_stable demo (Shell.new "shell" : Shell String (List String) Nat) _ "help" "show help"
    (wellFormed_new "shell") (by decide)
    (Evolves.execute_command "help" (42 : Nat)
      (Evolves.add_command "exit" "leave" (Evolves.refl _)) (by decide))

theorem valid_command_id_add_command (X : Externals Cmd Ctx) (s : Shell Cmd Ctx F) (cmd : Cmd)
    (descr : String) (hs : WellFormed s) (d : ShellCommandId)
    (h : valid_command_id s d = true) :
    valid_command_id (add_command X s cmd descr).1 d = true := by
  have hw := wellFormed_add_command X s cmd descr hs
  cases d with
  | INVALID => rw [valid_command_id_INVALID s hs] at h; cases h
  | mk i =>
    rw [valid_command_id_mk s hs] at h
    rw [valid_command_id_mk _ hw]
    have hi : i < s.command_ids_.length := of_decide_eq_true h
    apply decide_eq_true
    cases hfree : s.command_name2ids_ (X.cmd_name cmd) with
    | some id0 => rw [add_command_rejected X s cmd descr id0 hfree]; exact hi
    | none =>
      rw [add_command_accepted X s cmd descr hfree]
      simp only [List.length_append, List.length_singleton]
      omega

/-- In every reachable shell, each id held in a dependency list is valid. -/
theorem reachable_dependencies_valid {X : Externals Cmd Ctx} {s : Shell Cmd Ctx F}
    (h : Reachable X s) :
    ∀ ds ∈ s.command_dependencies_, ∀ d ∈ ds, valid_command_id s d = true := by
  induction h with
  | new name =>
    intro ds hds
    simp [Shell.new] at hds
  | @add_command s1 cmd descr hr ih =>
    intro ds hds d hd
    have hw := hr.wellFormed
    apply valid_command_id_add_command X s1 cmd descr hw
    cases hfree : s1.command_name2ids_ (X.cmd_name cmd) with
    | some id0 =>
      rw [add_command_rejected X s1 cmd descr id0 hfree] at hds
      exact ih ds hds d hd
    | none =>
      rw [add_command_accepted X s1 cmd descr hfree] at hds
      simp only [List.mem_append, List.mem_singleton] at hds
      rcases hds with hds | hds
      · exact ih ds hds d hd
      · rw [hds] at hd
        cases hd
  | @add_command_execute_function s1 s3 cmd_id exec_func _ hstep ih =>
    rw [add_command_execute_function_ok s1 s3 cmd_id exec_func hstep]
    exact ih
  | @add_command_dependency s1 s3 cmd_id dependent_cmds _ hstep ih =>
    obtain ⟨hs3, hvalid⟩ := add_command_dependency_ok s1 s3 cmd_id dependent_cmds hstep
    rw [hs3]
    intro ds hds d hd
    have hv : valid_command_id
        ({ s1 with
          command_dependencies_ := s1.command_dependencies_.set cmd_id.toSize dependent_cmds } :
          Shell Cmd Ctx F) d = valid_command_id s1 d := rfl
    rw [hv]
    rcases List.mem_or_eq_of_mem_set hds with hds | hds
    · exact ih ds hds d hd
    · rw [hds] at hd
      exact hvalid d hd

/-- The part of the registry shape that every reachable shell has: the six
containers indexed by an id have one length, slot `i` of `command_ids_` holds
the id of index `i`, and each id held in a dependency list is valid. -/
theorem reachable_registry_shape {X : Externals Cmd Ctx} {s : Shell Cmd Ctx F}
    (h : Reachable X s) :
    WellFormed s ∧ ∀ ds ∈ s.command_dependencies_, ∀ d ∈ ds, valid_command_id s d = true :=
  ⟨h.wellFormed, reachable_dependencies_valid h⟩

/-- The name map of a reachable shell has at most the shell's own name as
a key, and what it holds there was made from the name of a command. -/
theorem reachable_name_map {X : Externals Cmd Ctx} {s : Shell Cmd Ctx F}
    (h : Reachable X s) :
    ∀ key value, s.command_name2ids_ key = some value →
      key = s.name ∧ ∃ cmd : Cmd, value = X.id_of_name (X.cmd_name cmd) := by
  induction h with
  | new name =>
    intro key value hkv
    simp [Shell.new] at hkv
  | @add_command s1 cmd descr _ ih =>
    intro key value hkv
    cases hfree : s1.command_name2ids_ (X.cmd_name cmd) with
    | some id0 =>
      rw [add_command_rejected X s1 cmd descr id0 hfree] at hkv ⊢
      exact ih key value hkv
    | none =>
      rw [add_command_accepted X s1 cmd descr hfree] at hkv ⊢
      simp only [map_assign] at hkv
      by_cases hk : key = s1.name
      · rw [if_pos hk] at hkv
        injection hkv with hkv
        exact ⟨hk, cmd, hkv.symm⟩
      · rw [if_neg hk] at hkv
        exact ih key value hkv
  | @add_command_execute_function s1 s3 cmd_id exec_func _ hstep ih =>
    rw [add_command_execute_function_ok s1 s3 cmd_id exec_func hstep]
    exact ih
  | @add_command_dependency s1 s3 cmd_id dependent_cmds _ hstep ih =>
    rw [(add_command_dependency_ok s1 s3 cmd_id dependent_cmds hstep).1]
    exact ih

end Stability

/-! ## Dispatch of a registered command -/

section Resolution

variable {Cmd Ctx T F : Type}

/-- In a reachable shell the name map resolves no token but, at most, the
shell's own name. -/
theorem reachable_command_other_name {X : Externals Cmd Ctx} {s : Shell Cmd Ctx F}
    (hr : Reachable X s) (token0 : String) (h : token0 ≠ s.name) :
    s.command_name2ids_ token0 = none ∧ command s token0 = ShellCommandId.INVALID := by
  have hnone : s.command_name2ids_ token0 = none := by
    cases hm : s.command_name2ids_ token0 with
    | none => rfl
    | some value => exact absurd (reachable_name_map hr token0 value hm).1 h
  refine ⟨hnone, ?_⟩
  simp only [command, hnone]

theorem reachable_demo_help : Reachable demo demo_help :=
  Reachable.add_command "help" "show help" (Reachable.new "shell")

theorem reachable_demo_help_bound : Reachable demo demo_help_bound :=
  Reachable.add_command_execute_function (ShellCommandId.mk 0) (some 7) reachable_demo_help rfl

/-- C5 (the code at the failing inputs). In a shell reached by the
registration operations, let a command be registered under a valid id, with a
callback bound to it, and let its name, other than the name of the shell, be
the first token of the line. The name map does not hold the name (line 112
never stores it), so the lookup returns `INVALID` and not the id of the
command: `execute_command` logs that the command is not defined and
returns, and no callback is applied. -/
theorem execute_command_misses_bound_callback (X : Externals Cmd Ctx) (s : Shell Cmd Ctx F)
    (cmd_line : String) (common_context : T) (token0 : String) (rest : List String)
    (cmd_id : ShellCommandId) (cmd : Cmd) (f : F)
    (hr : Reachable X s)
    (htokens : X.split cmd_line = token0 :: rest)
    (hcmd : command_by_id s cmd_id = Except.ok cmd)
    (hnamed : X.cmd_name cmd = token0)
    (hfun : s.command_execute_functions_[cmd_id.toSize]? = some (some f))
    (hshell : token0 ≠ s.name) :
    command s (X.cmd_name cmd) = ShellCommandId.INVALID ∧
      command s (X.cmd_name cmd) ≠ cmd_id ∧
      s.command_execute_functions_[cmd_id.toSize]? = some (some f) ∧
      (execute_command X s cmd_line common_context).trace
        = [Event.log ("Try to call a command '" ++ token0 ++ "' which is not defined!\n")] ∧
      invocations (execute_command X s cmd_line common_context).trace = [] ∧
      (execute_command X s cmd_line common_context).fault = none := by
  obtain ⟨_, hid⟩ := reachable_command_other_name hr token0 hshell
  have hv := (command_by_id_ok s cmd_id cmd hcmd).1
  have hne := valid_ne_INVALID s hr.wellFormed cmd_id hv
  rw [hnamed, execute_command_unknown X s cmd_line common_context token0 rest htokens hid]
  refine ⟨hid, ?_, hfun, rfl, rfl, rfl⟩
  rw [hid]
  exact Ne.symm hne

/-- C5, in the shell named "shell" where "help" is registered and bound to
the callback 7: the line "help --x 1" is answered with the log line that
"help" is not defined, and the callback is not applied. -/
theorem execute_command_misses_bound_callback_witness :
    command_by_id demo_help_bound (ShellCommandId.mk 0) = Except.ok "help" ∧
      demo_help_bound.command_execute_functions_ = [some 7] ∧
      (execute_command demo demo_help_bound "help --x 1" (42 : Nat)).trace
        = [Event.log "Try to call a command 'help' which is not defined!\n"] ∧
      invocations (execute_command demo demo_help_bound "help --x 1" (42 : Nat)).trace = [] :=
  ⟨rfl, by decide,
    (execute_command_misses_bound_callback demo demo_help_bound "help --x 1" (42 : Nat) "help"
      ["--x", "1"] (ShellCommandId.mk 0) "help" 7 reachable_demo_help_bound (by decide) rfl rfl
      (by decide) (by decide)).2.2.2.1,
    (execute_command_misses_bound_callback demo demo_help_bound "help --x 1" (42 : Nat) "help"
      ["--x", "1"] (ShellCommandId.mk 0) "help" 7 reachable_demo_help_bound (by decide) rfl rfl
      (by decide) (by decide)).2.2.2.2.1⟩

/-- C7 (the code at the failing inputs). In a shell reached by the
registration operations, let a command be registered under a valid id and let
its name, other than the name of the shell, be the first token of a line on
which the parser would fail. The lookup of the name returns `INVALID`:
`execute_command` logs that the command is not defined and returns; the
parser is not called and `print_command_options` is not called. -/
theorem execute_command_misses_command_options (X : Externals Cmd Ctx) (s : Shell Cmd Ctx F)
    (cmd_line : String) (common_context : T) (token0 : String) (rest : List String)
    (cmd_id : ShellCommandId) (cmd : Cmd) (ctx : Ctx)
    (hr : Reachable X s)
    (htokens : X.split cmd_line = token0 :: rest)
    (hcmd : command_by_id s cmd_id = Except.ok cmd)
    (hnamed : X.cmd_name cmd = token0)
    (hctx : command_context s cmd_id = Except.ok ctx)
    (hparse : (X.parse_command (token0 :: rest) cmd ctx).1 = false)
    (hshell : token0 ≠ s.name) :
    command s (X.cmd_name cmd) ≠ cmd_id ∧
      (X.parse_command (X.split cmd_line) cmd ctx).1 = false ∧
      command_context s cmd_id = Except.ok ctx ∧
      (execute_command X s cmd_line common_context).trace
        = [Event.log ("Try to call a command '" ++ token0 ++ "' which is not defined!\n")] ∧
      parser_calls (execute_command X s cmd_line common_context).trace = 0 ∧
      Event.print_command_options cmd ∉ (execute_command X s cmd_line common_context).trace := by
  obtain ⟨_, hid⟩ := reachable_command_other_name hr token0 hshell
  have hv := (command_by_id_ok s cmd_id cmd hcmd).1
  have hne := valid_ne_INVALID s hr.wellFormed cmd_id hv
  rw [hnamed, htokens, execute_command_unknown X s cmd_line common_context token0 rest htokens hid]
  refine ⟨?_, hparse, hctx, rfl, rfl, ?_⟩
  · rw [hid]
    exact Ne.symm hne
  · intro h
    rcases List.mem_singleton.mp h with h
    cases h

/-- C7, in the shell named "shell" where "help" is registered: the line
"help a b c" has four tokens, which the parser of `demo` refuses; the line is
answered with the log line that "help" is not defined, and nothing else. -/
theorem execute_command_misses_command_options_witness :
    command_by_id demo_help_bound (ShellCommandId.mk 0) = Except.ok "help" ∧
      (execute_command demo demo_help_bound "help a b c" (42 : Nat)).trace
        = [Event.log "Try to call a command 'help' which is not defined!\n"] :=
  ⟨rfl,
    (execute_command_misses_command_options demo demo_help_bound "help a b c" (42 : Nat) "help"
      ["a", "b", "c"] (ShellCommandId.mk 0) "help" [] reachable_demo_help_bound (by decide)
      rfl rfl rfl (by decide) (by decide)).2.2.2.1⟩

end Resolution

end minishell
